import Mathlib

set_option maxRecDepth 400000

/-!
Verification of the risk-scoring engine of `src/risk_map.py` (class `RiskMap`).

The Python code is shallowly embedded: pandas Series become Lean lists, the
`RiskMap` object becomes an explicit state record, methods become functions
returning a result together with the post-state (Python exceptions become the
`Except.error` branch, raised before any state mutation, exactly as in the
source).  Exact rational arithmetic (`ℚ`) stands in for floating point in the
engine; the `z_score` normalization branch uses `ℝ` because it involves the
exponential and the square root.  pandas `inf`/`NaN` values never survive in
the source (every producer is immediately followed by `replace`/`fillna`), so
the embedding coerces them to `0` at the producing site, as the source does.
-/

namespace RiskMapModel

/-- The four labels of `pd.cut(..., labels=['Low','Medium','High','Very High'])`. -/
inductive RiskCategory : Type where
  | Low : RiskCategory
  | Medium : RiskCategory
  | High : RiskCategory
  | VeryHigh : RiskCategory
deriving DecidableEq, Repr

/-- `series.min()` of pandas over a nonempty series (the `[]` case is a dead
placeholder: the source only ever evaluates it on nonempty series, and the
empty case feeds the degenerate branch of the normalizer anyway). -/
def listMin {α : Type} [LinearOrder α] [Inhabited α] : List α → α
  | [] => default
  | [x] => x
  | x :: y :: t => min x (listMin (y :: t))

/-- `series.max()` of pandas over a nonempty series. -/
def listMax {α : Type} [LinearOrder α] [Inhabited α] : List α → α
  | [] => default
  | [x] => x
  | x :: y :: t => max x (listMax (y :: t))

/-- The value of min-max normalization at one point, given the series min and
max: `(v - min) / (max - min)` when the spread is positive, else `0`
(the `pd.Series(0, index=...)` branch of `normalize_risk_factor`). -/
def nmval {α : Type} [LinearOrderedField α] (v mn mx : α) : α :=
  if 0 < mx - mn then (v - mn) / (mx - mn) else 0

/-- The `min_max` branch of `RiskMap.normalize_risk_factor`
(risk_map.py lines 175-181 together with the final `fillna(0)`, which is the
identity here because the embedding carries no NaN).  Polymorphic so that the
engine can run it on `ℚ` while `normalize_risk_factor` exposes it on `ℝ`. -/
def minMaxNormalize {α : Type} [LinearOrderedField α] [Inhabited α] (s : List α) : List α :=
  let mn := listMin s
  let mx := listMax s
  if 0 < mx - mn then s.map (fun v => (v - mn) / (mx - mn))
  else List.replicate s.length 0

/-- `series.mean()`. -/
noncomputable def seriesMean (s : List ℝ) : ℝ := s.sum / s.length

/-- `series.std()` of pandas (sample standard deviation, `ddof=1`).  For a
singleton pandas yields NaN; here the Lean convention `0 / 0 = 0` yields `0`,
and both fail the `std > 0` test in the same way. -/
noncomputable def seriesStd (s : List ℝ) : ℝ :=
  Real.sqrt ((s.map (fun v => (v - seriesMean s) ^ 2)).sum / ((s.length : ℝ) - 1))

/-- The `z_score` branch of `RiskMap.normalize_risk_factor`
(risk_map.py lines 182-190): standard scores passed through the logistic
sigmoid when the standard deviation is positive, a constant `0.5` series
otherwise. -/
noncomputable def zScoreNormalize (s : List ℝ) : List ℝ :=
  let mu := seriesMean s
  let sd := seriesStd s
  if 0 < sd then s.map (fun v => 1 / (1 + Real.exp (-((v - mu) / sd))))
  else List.replicate s.length (1 / 2)

/-- `RiskMap.normalize_risk_factor` (risk_map.py lines 159-194): dispatch on
the method name, unknown names raise `ValueError`. -/
noncomputable def normalize_risk_factor (series : List ℝ) (method : String) :
    Except String (List ℝ) :=
  if method = "min_max" then .ok (minMaxNormalize series)
  else if method = "z_score" then .ok (zScoreNormalize series)
  else .error ("Unknown normalization method: " ++ method)

/-! The engine's data model: the zip-code table, the result table and the
`RiskMap` object state. -/

/-- One loaded zip-code table (`self.zip_code_data`), column-oriented.
Optional columns are wrapped in `Option`; nullable entries of the factor
columns are `Option ℚ` (pandas NaN = `none`).  The opaque `geometry` column
is reduced to what the engine uses of it: the polygon area in m² under the
projected CRS (`gdf.to_crs('EPSG:3857').geometry.area`). -/
structure ZipTable : Type where
  population : List ℚ
  area_km2 : Option (List ℚ)
  bird_density : Option (List (Option ℚ))
  water_proximity : Option (List (Option ℚ))
  healthcare_capacity : Option (List (Option ℚ))
  vulnerability_index : Option (List (Option ℚ))
  geometry : Option (List ℚ)
deriving DecidableEq, Repr

/-- The result frame built by `calculate_risk_scores`: raw columns (when the
factor is available), `*_norm` columns, composite score and category.  The
category is `Option RiskCategory` because `pd.cut` yields NaN outside the
bins. -/
structure ResultTable : Type where
  population_density : List ℚ
  population_density_norm : List ℚ
  bird_density : Option (List ℚ)
  bird_density_norm : List ℚ
  water_proximity : Option (List ℚ)
  water_proximity_norm : List ℚ
  healthcare_capacity : Option (List ℚ)
  healthcare_capacity_norm : List ℚ
  vulnerability_index : Option (List ℚ)
  vulnerability_index_norm : List ℚ
  risk_score : List ℚ
  risk_category : List (Option RiskCategory)
deriving DecidableEq, Repr

/-- The `RiskMap` object state: `self.zip_code_data`, `self.risk_scores`,
`self.risk_map_gdf` (the concatenation of the two tables, kept abstract as
the pair) and `self.risk_weights`.  A Python dict becomes an association
list. -/
structure RiskMapState : Type where
  zip_code_data : Option ZipTable
  risk_scores : Option ResultTable
  risk_map_gdf : Option (ZipTable × ResultTable)
  risk_weights : List (String × ℚ)
deriving DecidableEq, Repr

/-- The default weights of `RiskMap.__init__`. -/
def default_weights : List (String × ℚ) :=
  [("population_density", 3/10), ("bird_density", 2/5), ("water_proximity", 3/20),
   ("healthcare_capacity", 1/10), ("vulnerability_index", 1/20)]

/-- Weight normalization at construction (risk_map.py lines 78-81): divide by
the total when it is positive, leave the mapping unchanged otherwise. -/
def normalize_weights (ws : List (String × ℚ)) : List (String × ℚ) :=
  let total := (ws.map (fun p => p.2)).sum
  if 0 < total then ws.map (fun p => (p.1, p.2 / total)) else ws

/-- `RiskMap.__init__`: pick the given weights unless the dict is falsy
(absent or empty), then normalize.  No scores are cached yet. -/
def riskMapInit (zip_code_data : Option ZipTable)
    (risk_weights : Option (List (String × ℚ))) : RiskMapState :=
  let ws := match risk_weights with
    | some ws => if ws = [] then default_weights else ws
    | none => default_weights
  { zip_code_data := zip_code_data, risk_scores := none, risk_map_gdf := none,
    risk_weights := normalize_weights ws }

/-- `dict.get(key, 0)` on the weight mapping. -/
def wget (ws : List (String × ℚ)) (k : String) : ℚ :=
  match ws.find? (fun p => p.1 = k) with
  | some p => p.2
  | none => 0

/-- `series.fillna(0)` on a nullable column. -/
def fillna (c : List (Option ℚ)) : List ℚ := c.map (fun o => o.getD 0)

/-- `population / area` followed by `replace([inf, -inf], 0).fillna(0)`
(risk_map.py lines 153-155): a zero area yields ±inf or NaN in pandas, and
both are immediately coerced to `0`, so the embedding returns `0` there. -/
def densityOf (pop area : List ℚ) : List ℚ :=
  List.zipWith (fun p a => if a = 0 then 0 else p / a) pop area

/-- The table-level part of `calculate_population_density` (risk_map.py lines
144-157): use the `area_km2` column when present; otherwise derive it from
geometry (m² to km²) and cache the derived column in the table; otherwise
raise. -/
def table_pop_density (t : ZipTable) : Except String (List ℚ × ZipTable) :=
  match t.area_km2 with
  | some ar => .ok (densityOf t.population ar, t)
  | none =>
    match t.geometry with
    | some g =>
      let ar := g.map (fun x => x / 1000000)
      .ok (densityOf t.population ar, { t with area_km2 := some ar })
    | none => .error "Area column not found and cannot calculate from geometry."

/-- `RiskMap.calculate_population_density` (risk_map.py lines 121-157),
returning the result (or the raised error) together with the post-state. -/
def calculate_population_density (s : RiskMapState) :
    Except String (List ℚ) × RiskMapState :=
  match s.zip_code_data with
  | none => (.error "No zip code data loaded. Use load_zip_code_data() first.", s)
  | some t =>
    match table_pop_density t with
    | .error e => (.error e, s)
    | .ok (d, t2) => (.ok d, { s with zip_code_data := some t2 })

/-- One optional factor's raw and normalized columns (risk_map.py lines
239-252 and 264-270): when the column exists, fill nulls with 0, keep the raw
column and min-max-normalize it; otherwise there is no raw column and the
`_norm` column is the broadcast scalar `0`. -/
def factorRawNorm (col : Option (List (Option ℚ))) (n : ℕ) :
    Option (List ℚ) × List ℚ :=
  match col with
  | some c =>
    let raw := fillna c
    (some raw, minMaxNormalize raw)
  | none => (none, List.replicate n 0)

/-- Healthcare capacity (risk_map.py lines 254-262): as `factorRawNorm`, but
the normalized value is inverted (`1 - norm`), since capacity is protective.
The absent case is plain `0`, not inverted. -/
def healthcareRawNorm (col : Option (List (Option ℚ))) (n : ℕ) :
    Option (List ℚ) × List ℚ :=
  match col with
  | some c =>
    let raw := fillna c
    (some raw, (minMaxNormalize raw).map (fun x => 1 - x))
  | none => (none, List.replicate n 0)

/-- The elementwise weighted sum of the five `_norm` series (risk_map.py
lines 272-279), `norm * weight` summed pairwise. -/
def weightedSum (w1 w2 w3 w4 w5 : ℚ) (c1 c2 c3 c4 c5 : List ℚ) : List ℚ :=
  List.zipWith (fun a b => a + b) (c1.map (fun x => x * w1))
    (List.zipWith (fun a b => a + b) (c2.map (fun x => x * w2))
      (List.zipWith (fun a b => a + b) (c3.map (fun x => x * w3))
        (List.zipWith (fun a b => a + b) (c4.map (fun x => x * w4))
          (c5.map (fun x => x * w5)))))

/-- `pd.cut(risk_score, bins=[0, 0.25, 0.5, 0.75, 1.0], labels=...)`
(risk_map.py lines 282-286).  With `right=True` and the default
`include_lowest=False` every bin is a half-open interval `(lo, hi]`; a value
outside `(0, 1]` (in particular exactly `0`) falls in no bin and gets NaN. -/
def riskCategory (v : ℚ) : Option RiskCategory :=
  if 0 < v ∧ v ≤ 1/4 then some .Low
  else if 1/4 < v ∧ v ≤ 1/2 then some .Medium
  else if 1/2 < v ∧ v ≤ 3/4 then some .High
  else if 3/4 < v ∧ v ≤ 1 then some .VeryHigh
  else none

/-- The body of `calculate_risk_scores` after population density has been
resolved (risk_map.py lines 231-286), building the results frame from the
table `t` and the density column. -/
def mkResults (ws : List (String × ℚ)) (t : ZipTable) (dens : List ℚ) :
    ResultTable :=
  let n := t.population.length
  let popn := minMaxNormalize dens
  let bird := factorRawNorm t.bird_density n
  let water := factorRawNorm t.water_proximity n
  let hc := healthcareRawNorm t.healthcare_capacity n
  let vuln := factorRawNorm t.vulnerability_index n
  let score := weightedSum (wget ws "population_density") (wget ws "bird_density")
    (wget ws "water_proximity") (wget ws "healthcare_capacity")
    (wget ws "vulnerability_index") popn bird.2 water.2 hc.2 vuln.2
  { population_density := dens
    population_density_norm := popn
    bird_density := bird.1
    bird_density_norm := bird.2
    water_proximity := water.1
    water_proximity_norm := water.2
    healthcare_capacity := hc.1
    healthcare_capacity_norm := hc.2
    vulnerability_index := vuln.1
    vulnerability_index_norm := vuln.2
    risk_score := score
    risk_category := score.map riskCategory }

/-- `RiskMap.calculate_risk_scores` (risk_map.py lines 196-298): raises when
no table is loaded, computes population density (possibly caching a derived
area column in the table), builds the results frame, caches it in
`self.risk_scores` and builds `self.risk_map_gdf`. -/
def calculate_risk_scores (s : RiskMapState) :
    Except String ResultTable × RiskMapState :=
  match s.zip_code_data with
  | none => (.error "No zip code data loaded. Use load_zip_code_data() first.", s)
  | some t =>
    match table_pop_density t with
    | .error e => (.error e, s)
    | .ok (dens, t2) =>
      let rt := mkResults s.risk_weights t2 dens
      (.ok rt,
        { s with
          zip_code_data := some t2
          risk_scores := some rt
          risk_map_gdf := some (t2, rt) })

/-- Descending order on result rows (a row is its frame index paired with its
`risk_score`). -/
def scoreGE (a b : ℕ × ℚ) : Prop := b.2 ≤ a.2

instance : DecidableRel scoreGE := fun a b => inferInstanceAs (Decidable (b.2 ≤ a.2))

instance : IsTotal (ℕ × ℚ) scoreGE := ⟨fun a b => le_total b.2 a.2⟩

instance : IsTrans (ℕ × ℚ) scoreGE := ⟨fun _ _ _ h1 h2 => le_trans h2 h1⟩

/-- `sort_values('risk_score', ascending=False)` (also the order `nlargest`
returns).  pandas does not pin the order of tied rows; the model fixes a
stable sort, which is one of the permitted tie orders. -/
def sortByScoreDesc (l : List (ℕ × ℚ)) : List (ℕ × ℚ) :=
  List.insertionSort scoreGE l

/-- `RiskMap.get_high_risk_zips` (risk_map.py lines 493-521).  Rows of the
cached frame are `(index, risk_score)` pairs.  `if top_n:` is Python
truthiness: `0` (and `None`) select the threshold filter, any other value
selects `nlargest(top_n)` over the full frame, which ignores `threshold`;
`nlargest` with a negative argument yields an empty frame, as does
`List.take (Int.toNat k)`.  The method reads but never writes the state. -/
def get_high_risk_zips (s : RiskMapState) (threshold : ℚ) (top_n : Option ℤ) :
    Except String (List (ℕ × ℚ)) × RiskMapState :=
  match s.risk_scores with
  | none => (.error "Risk scores not calculated. Use calculate_risk_scores() first.", s)
  | some rt =>
    let rows := rt.risk_score.enum
    let base := rows.filter (fun r => threshold ≤ r.2)
    let high_risk := match top_n with
      | some k => if k ≠ 0 then (sortByScoreDesc rows).take k.toNat else base
      | none => base
    (.ok (sortByScoreDesc high_risk), s)

/-! Well-formedness side conditions drawn from the spec's data model
(section 3): all columns of a loaded table have one length, and areas are
non-negative reals.  They are `Bool`-valued so concrete instances can be
checked by `decide`. -/

/-- Number of rows of the table. -/
def ZipTable.nrows (t : ZipTable) : ℕ := t.population.length

/-- All present columns have the same length as `population`. -/
def ZipTable.wf (t : ZipTable) : Bool :=
  (t.area_km2.all fun c => c.length = t.population.length) &&
  (t.bird_density.all fun c => c.length = t.population.length) &&
  (t.water_proximity.all fun c => c.length = t.population.length) &&
  (t.healthcare_capacity.all fun c => c.length = t.population.length) &&
  (t.vulnerability_index.all fun c => c.length = t.population.length) &&
  (t.geometry.all fun c => c.length = t.population.length)

/-- Areas (and geometry areas) are non-negative, per the spec's data model. -/
def ZipTable.areasNonneg (t : ZipTable) : Bool :=
  (t.area_km2.all fun c => c.all fun a => 0 ≤ a) &&
  (t.geometry.all fun c => c.all fun a => 0 ≤ a)

/-- All weights in the mapping are non-negative, per the spec's data model. -/
def weightsNonneg (ws : List (String × ℚ)) : Bool :=
  ws.all (fun p => 0 ≤ p.2)



/-- The non-healthcare factors of claim C3: population (driving population
density) and the three directly-contributing optional factors. -/
inductive NonHealthFactor : Type where
  | population : NonHealthFactor
  | bird_density : NonHealthFactor
  | water_proximity : NonHealthFactor
  | vulnerability_index : NonHealthFactor
deriving DecidableEq, Repr

/-- The raw value of a factor for one area, when present. -/
def NonHealthFactor.rawGet : NonHealthFactor → ZipTable → ℕ → Option ℚ
  | .population, t, i => t.population[i]?
  | .bird_density, t, i => t.bird_density.bind fun c => (getElem? c i).bind id
  | .water_proximity, t, i => t.water_proximity.bind fun c => (getElem? c i).bind id
  | .vulnerability_index, t, i => t.vulnerability_index.bind fun c => (getElem? c i).bind id

/-- Replace the raw value of a factor for one area. -/
def NonHealthFactor.setRaw : NonHealthFactor → ZipTable → ℕ → ℚ → ZipTable
  | .population, t, i, x => { t with population := t.population.set i x }
  | .bird_density, t, i, x =>
      { t with bird_density := t.bird_density.map (fun c => c.set i (some x)) }
  | .water_proximity, t, i, x =>
      { t with water_proximity := t.water_proximity.map (fun c => c.set i (some x)) }
  | .vulnerability_index, t, i, x =>
      { t with vulnerability_index := t.vulnerability_index.map (fun c => c.set i (some x)) }

/-- Replace one area's raw healthcare-capacity value in the table. -/
def bumpHC (t : ZipTable) (hc : List (Option ℚ)) (i : ℕ) (x : ℚ) : ZipTable :=
  { t with healthcare_capacity := some (hc.set i (some x)) }

/-! Concrete instances used to exercise the theorems below on closed inputs. -/

/-- A two-row table: populations 1000 and 5000 on unit areas, no optional
factor columns. -/
def exTable1 : ZipTable :=
  { population := [1000, 5000], area_km2 := some [1, 1], bird_density := none,
    water_proximity := none, healthcare_capacity := none,
    vulnerability_index := none, geometry := none }

/-- An engine constructed on `exTable1` with the default weights. -/
def exS1 : RiskMapState := riskMapInit (some exTable1) none


/-- The result frame `calculate_risk_scores` produces on `exS1`. -/
def exRT1 : ResultTable :=
  mkResults exS1.risk_weights exTable1 (densityOf exTable1.population [1, 1])

/-- A one-row table with no `area_km2` column but with geometry of 2,000,000
m² (2 km²). -/
def exTable8 : ZipTable :=
  { population := [100], area_km2 := none, bird_density := none,
    water_proximity := none, healthcare_capacity := none,
    vulnerability_index := none, geometry := some [2000000] }

/-- An engine constructed on `exTable8` with the default weights. -/
def exS8 : RiskMapState := riskMapInit (some exTable8) none

/-- A two-row table carrying a healthcare-capacity column. -/
def exTableHC : ZipTable :=
  { population := [1, 1], area_km2 := some [1, 1], bird_density := none,
    water_proximity := none, healthcare_capacity := some [some 0, some 1],
    vulnerability_index := none, geometry := none }

/-- An engine constructed on `exTableHC` with the default weights. -/
def exSHC : RiskMapState := riskMapInit (some exTableHC) none

/-- A ready-made result frame with three scored rows. -/
def exRTq : ResultTable :=
  { population_density := [1, 2, 3], population_density_norm := [0, 1/2, 1],
    bird_density := none, bird_density_norm := [0, 0, 0],
    water_proximity := none, water_proximity_norm := [0, 0, 0],
    healthcare_capacity := none, healthcare_capacity_norm := [0, 0, 0],
    vulnerability_index := none, vulnerability_index_norm := [0, 0, 0],
    risk_score := [1/2, 1/4, 3/4],
    risk_category := [some .Medium, some .Low, some .High] }

/-- An engine state holding the cached result frame `exRTq`. -/
def exScored : RiskMapState :=
  { zip_code_data := none, risk_scores := some exRTq, risk_map_gdf := none,
    risk_weights := [] }

/-- An engine with a cached result but no loaded table: every computing
operation fails on it. -/
def exS9 : RiskMapState :=
  { zip_code_data := none, risk_scores := some exRTq, risk_map_gdf := none,
    risk_weights := [] }

/-- Projection of a scoring call used to state closed counterexamples without
an `Except` equality: the score and category columns on success. -/
def okScores (s : RiskMapState) : Option (List ℚ × List (Option RiskCategory)) :=
  match (calculate_risk_scores s).1 with
  | .ok rt => some (rt.risk_score, rt.risk_category)
  | .error _ => none

/-! Basic facts about `listMin`, `listMax` and `minMaxNormalize`. -/

theorem listMin_cons {α : Type} [LinearOrder α] [Inhabited α] (x : α) (t : List α)
    (h : t ≠ []) : listMin (x :: t) = min x (listMin t) := by
  cases t with
  | nil => exact absurd rfl h
  | cons y s => rfl

theorem listMax_cons {α : Type} [LinearOrder α] [Inhabited α] (x : α) (t : List α)
    (h : t ≠ []) : listMax (x :: t) = max x (listMax t) := by
  cases t with
  | nil => exact absurd rfl h
  | cons y s => rfl

theorem listMin_le_mem {α : Type} [LinearOrder α] [Inhabited α] :
    ∀ (s : List α), ∀ x ∈ s, listMin s ≤ x := by
  intro s
  induction s with
  | nil => intro x hx; cases hx
  | cons a t ih =>
    intro x hx
    cases t with
    | nil =>
      rcases List.mem_cons.mp hx with h | h
      · subst h; exact le_refl _
      · cases h
    | cons b u =>
      rcases List.mem_cons.mp hx with h | h
      · subst h; exact min_le_left _ _
      · exact le_trans (min_le_right _ _) (ih x h)

theorem mem_le_listMax {α : Type} [LinearOrder α] [Inhabited α] :
    ∀ (s : List α), ∀ x ∈ s, x ≤ listMax s := by
  intro s
  induction s with
  | nil => intro x hx; cases hx
  | cons a t ih =>
    intro x hx
    cases t with
    | nil =>
      rcases List.mem_cons.mp hx with h | h
      · subst h; exact le_refl _
      · cases h
    | cons b u =>
      rcases List.mem_cons.mp hx with h | h
      · subst h; exact le_max_left _ _
      · exact le_trans (ih x h) (le_max_right _ _)

theorem listMin_le_listMax {α : Type} [LinearOrder α] [Inhabited α]
    (s : List α) (h : s ≠ []) : listMin s ≤ listMax s := by
  cases s with
  | nil => exact absurd rfl h
  | cons a t =>
    exact le_trans (listMin_le_mem _ a (List.mem_cons_self a t))
      (mem_le_listMax _ a (List.mem_cons_self a t))

theorem minMaxNormalize_eq_map {α : Type} [LinearOrderedField α] [Inhabited α] (s : List α) :
    minMaxNormalize s = s.map (fun v => nmval v (listMin s) (listMax s)) := by
  unfold minMaxNormalize nmval
  by_cases h : 0 < listMax s - listMin s
  · simp only [h, if_true]
  · simp only [h, if_false]
    symm
    exact List.map_const' s 0

theorem length_minMaxNormalize {α : Type} [LinearOrderedField α] [Inhabited α] (s : List α) :
    (minMaxNormalize s).length = s.length := by
  rw [minMaxNormalize_eq_map]; exact List.length_map _ _

theorem nmval_nonneg {α : Type} [LinearOrderedField α] {v mn mx : α}
    (h : mn ≤ v) : 0 ≤ nmval v mn mx := by
  unfold nmval
  split
  · exact div_nonneg (by linarith) (by linarith)
  · exact le_refl 0

theorem nmval_le_one {α : Type} [LinearOrderedField α] {v mn mx : α}
    (h : v ≤ mx) : nmval v mn mx ≤ 1 := by
  unfold nmval
  split
  · rename_i hlt
    rw [div_le_one hlt]
    linarith
  · exact zero_le_one

theorem minMaxNormalize_mem_range {α : Type} [LinearOrderedField α] [Inhabited α]
    (s : List α) : ∀ x ∈ minMaxNormalize s, 0 ≤ x ∧ x ≤ 1 := by
  intro x hx
  rw [minMaxNormalize_eq_map] at hx
  simp only [List.mem_map] at hx
  obtain ⟨v, hv, rfl⟩ := hx
  exact ⟨nmval_nonneg (listMin_le_mem s v hv), nmval_le_one (mem_le_listMax s v hv)⟩

theorem eraseIdx_set {α : Type} :
    ∀ (s : List α) (i : ℕ) (x : α), (s.set i x).eraseIdx i = s.eraseIdx i := by
  intro s
  induction s with
  | nil => intro i x; rfl
  | cons a t ih =>
    intro i x
    cases i with
    | zero => rfl
    | succ j =>
      show a :: (t.set j x).eraseIdx j = a :: t.eraseIdx j
      rw [ih]

theorem listMin_eraseIdx {α : Type} [LinearOrder α] [Inhabited α] :
    ∀ (s : List α) (i : ℕ) (a : α), s[i]? = some a →
      (s.eraseIdx i = [] ∧ listMin s = a) ∨
      (s.eraseIdx i ≠ [] ∧ listMin s = min a (listMin (s.eraseIdx i))) := by
  intro s
  induction s with
  | nil => intro i a h; simp at h
  | cons x t ih =>
    intro i a h
    cases i with
    | zero =>
      have hx : x = a := by simpa using h
      subst hx
      cases t with
      | nil => exact Or.inl ⟨rfl, rfl⟩
      | cons y u => exact Or.inr ⟨by simp, listMin_cons x (y :: u) (by simp)⟩
    | succ j =>
      have hj : t[j]? = some a := by simpa using h
      have ht : t ≠ [] := by
        intro he; subst he; simp at hj
      have hsJ : (x :: t).eraseIdx (j + 1) = x :: t.eraseIdx j := rfl
      rcases ih j a hj with ⟨h1, h2⟩ | ⟨h1, h2⟩
      · rw [hsJ, h1]
        refine Or.inr ⟨by simp, ?_⟩
        rw [listMin_cons x t ht, h2]
        show min x a = min a (listMin [x])
        show min x a = min a x
        exact min_comm x a
      · rw [hsJ]
        refine Or.inr ⟨by simp, ?_⟩
        rw [listMin_cons x t ht, h2, listMin_cons x _ h1]
        exact min_left_comm x a _

theorem listMax_eraseIdx {α : Type} [LinearOrder α] [Inhabited α] :
    ∀ (s : List α) (i : ℕ) (a : α), s[i]? = some a →
      (s.eraseIdx i = [] ∧ listMax s = a) ∨
      (s.eraseIdx i ≠ [] ∧ listMax s = max a (listMax (s.eraseIdx i))) := by
  intro s
  induction s with
  | nil => intro i a h; simp at h
  | cons x t ih =>
    intro i a h
    cases i with
    | zero =>
      have hx : x = a := by simpa using h
      subst hx
      cases t with
      | nil => exact Or.inl ⟨rfl, rfl⟩
      | cons y u => exact Or.inr ⟨by simp, listMax_cons x (y :: u) (by simp)⟩
    | succ j =>
      have hj : t[j]? = some a := by simpa using h
      have ht : t ≠ [] := by
        intro he; subst he; simp at hj
      have hsJ : (x :: t).eraseIdx (j + 1) = x :: t.eraseIdx j := rfl
      rcases ih j a hj with ⟨h1, h2⟩ | ⟨h1, h2⟩
      · rw [hsJ, h1]
        refine Or.inr ⟨by simp, ?_⟩
        rw [listMax_cons x t ht, h2]
        show max x a = max a (listMax [x])
        show max x a = max a x
        exact max_comm x a
      · rw [hsJ]
        refine Or.inr ⟨by simp, ?_⟩
        rw [listMax_cons x t ht, h2, listMax_cons x _ h1]
        exact max_left_comm x a _

/-- The key arithmetic fact behind factor monotonicity of the composite
score: the min-max-normalized value of the modified entry, computed against
the min/max of the modified series, is monotone in that entry.  Here `m`/`M`
are the min/max of the remaining entries. -/
theorem nmval_mono {α : Type} [LinearOrderedField α] (a a' m M : α)
    (haa : a ≤ a') (hmM : m ≤ M) :
    nmval a (min a m) (max a M) ≤ nmval a' (min a' m) (max a' M) := by
  unfold nmval
  by_cases hD' : 0 < max a' M - min a' m
  · rw [if_pos hD']
    by_cases hD : 0 < max a M - min a m
    · rw [if_pos hD]
      rw [div_le_div_iff₀ hD hD']
      rcases le_total a m with h1 | h1
      · rw [min_eq_left h1, sub_self, zero_mul]
        have h2 : min a' m ≤ a' := min_le_left _ _
        have h3 : a ≤ max a M := le_max_left _ _
        exact mul_nonneg (by linarith) (by linarith)
      · rw [min_eq_right h1]
        have h1' : m ≤ a' := le_trans h1 haa
        rw [min_eq_right h1']
        rcases le_total a M with h2 | h2
        · rw [max_eq_right h2] at hD ⊢
          rcases le_total a' M with h3 | h3
          · rw [max_eq_right h3]
            nlinarith
          · rw [max_eq_left h3]
            nlinarith
        · rw [max_eq_left h2] at hD ⊢
          have h3 : M ≤ a' := le_trans h2 haa
          rw [max_eq_left h3]
          rw [mul_comm]
    · rw [if_neg hD]
      have h2 : min a' m ≤ a' := min_le_left _ _
      exact div_nonneg (by linarith) (le_of_lt hD')
  · rw [if_neg hD']
    have hk : max a' M - min a' m ≤ 0 := not_lt.mp hD'
    have k1 : min a' m ≤ a' := min_le_left _ _
    have k2 : a' ≤ max a' M := le_max_left _ _
    have k3 : min a' m ≤ m := min_le_right _ _
    have k4 : M ≤ max a' M := le_max_right _ _
    have hma : m = a' := le_antisymm (by linarith) (by linarith)
    have hMa : M = a' := le_antisymm (by linarith) (by linarith)
    split
    · have h1 : min a m = a := min_eq_left (by linarith)
      rw [h1, sub_self, zero_div]
    · exact le_refl 0

/-- Raising one entry of a series never lowers that entry's min-max-normalized
value (all other entries held fixed). -/
theorem minMaxNormalize_set_mono {α : Type} [LinearOrderedField α] [Inhabited α]
    (s : List α) (i : ℕ) (a a' : α) (ha : s[i]? = some a) (h : a ≤ a') :
    ∃ b b', (minMaxNormalize s)[i]? = some b ∧
      (minMaxNormalize (s.set i a'))[i]? = some b' ∧ b ≤ b' := by
  have hi : i < s.length := (List.getElem?_eq_some_iff.mp ha).1
  have ha' : (s.set i a')[i]? = some a' := List.getElem?_set_self hi
  rw [minMaxNormalize_eq_map, minMaxNormalize_eq_map, List.getElem?_map, ha,
    List.getElem?_map, ha']
  refine ⟨_, _, rfl, rfl, ?_⟩
  have hs'e : (s.set i a').eraseIdx i = s.eraseIdx i := eraseIdx_set s i a'
  rcases listMin_eraseIdx s i a ha with ⟨he, hmin⟩ | ⟨he, hmin⟩
  · rcases listMax_eraseIdx s i a ha with ⟨_, hmax⟩ | ⟨hne2, _⟩
    · rcases listMin_eraseIdx (s.set i a') i a' ha' with ⟨_, hmin'⟩ | ⟨hne', _⟩
      · rcases listMax_eraseIdx (s.set i a') i a' ha' with ⟨_, hmax'⟩ | ⟨hne', _⟩
        · rw [hmin, hmax, hmin', hmax']
          unfold nmval
          simp
        · rw [hs'e] at hne'; exact absurd he hne'
      · rw [hs'e] at hne'; exact absurd he hne'
    · exact absurd he hne2
  · rcases listMax_eraseIdx s i a ha with ⟨h1, _⟩ | ⟨_, hmax⟩
    · exact absurd h1 he
    · rcases listMin_eraseIdx (s.set i a') i a' ha' with ⟨h1, _⟩ | ⟨_, hmin'⟩
      · rw [hs'e] at h1; exact absurd h1 he
      · rcases listMax_eraseIdx (s.set i a') i a' ha' with ⟨h1, _⟩ | ⟨_, hmax'⟩
        · rw [hs'e] at h1; exact absurd h1 he
        · rw [hs'e] at hmin' hmax'
          rw [hmin, hmax, hmin', hmax']
          exact nmval_mono a a' (listMin (s.eraseIdx i)) (listMax (s.eraseIdx i))
            h (listMin_le_listMax _ he)


/-! Facts about degenerate (constant) series. -/

theorem listMin_const {α : Type} [LinearOrder α] [Inhabited α] :
    ∀ (s : List α) (c : α), s ≠ [] → (∀ x ∈ s, x = c) → listMin s = c := by
  intro s
  induction s with
  | nil => intro c h _; exact absurd rfl h
  | cons a t ih =>
    intro c _ hc
    have ha : a = c := hc a (List.mem_cons_self a t)
    cases t with
    | nil => exact ha
    | cons b u =>
      rw [listMin_cons a _ (by simp), ha,
        ih c (by simp) (fun x hx => hc x (List.mem_cons_of_mem a hx))]
      exact min_self c

theorem listMax_const {α : Type} [LinearOrder α] [Inhabited α] :
    ∀ (s : List α) (c : α), s ≠ [] → (∀ x ∈ s, x = c) → listMax s = c := by
  intro s
  induction s with
  | nil => intro c h _; exact absurd rfl h
  | cons a t ih =>
    intro c _ hc
    have ha : a = c := hc a (List.mem_cons_self a t)
    cases t with
    | nil => exact ha
    | cons b u =>
      rw [listMax_cons a _ (by simp), ha,
        ih c (by simp) (fun x hx => hc x (List.mem_cons_of_mem a hx))]
      exact max_self c

theorem minMaxNormalize_const {α : Type} [LinearOrderedField α] [Inhabited α]
    (s : List α) (c : α) (hne : s ≠ []) (hc : ∀ x ∈ s, x = c) :
    minMaxNormalize s = List.replicate s.length 0 := by
  simp only [minMaxNormalize]
  rw [listMin_const s c hne hc, listMax_const s c hne hc]
  simp

theorem sum_const_list (s : List ℝ) (c : ℝ) (hc : ∀ x ∈ s, x = c) :
    s.sum = s.length * c := by
  induction s with
  | nil => simp
  | cons a t ih =>
    have ha : a = c := hc a (List.mem_cons_self a t)
    rw [List.sum_cons, ih (fun x hx => hc x (List.mem_cons_of_mem a hx)), ha,
      List.length_cons]
    push_cast
    ring

theorem seriesMean_const (s : List ℝ) (c : ℝ) (hne : s ≠ []) (hc : ∀ x ∈ s, x = c) :
    seriesMean s = c := by
  unfold seriesMean
  rw [sum_const_list s c hc]
  have h0 : (s.length : ℝ) ≠ 0 :=
    Nat.cast_ne_zero.mpr (List.length_pos.mpr hne).ne'
  field_simp

theorem seriesStd_const (s : List ℝ) (c : ℝ) (hne : s ≠ []) (hc : ∀ x ∈ s, x = c) :
    seriesStd s = 0 := by
  unfold seriesStd
  have hz : (s.map (fun v => (v - seriesMean s) ^ 2)).sum = 0 := by
    apply List.sum_eq_zero
    intro y hy
    obtain ⟨v, hv, rfl⟩ := List.mem_map.mp hy
    rw [seriesMean_const s c hne hc, hc v hv]
    ring
  rw [hz, zero_div, Real.sqrt_zero]

theorem zScoreNormalize_const (s : List ℝ) (c : ℝ) (hne : s ≠ [])
    (hc : ∀ x ∈ s, x = c) :
    zScoreNormalize s = List.replicate s.length (1 / 2) := by
  simp only [zScoreNormalize]
  rw [seriesStd_const s c hne hc]
  norm_num

theorem zScoreNormalize_mem_range (s : List ℝ) :
    ∀ x ∈ zScoreNormalize s, 0 ≤ x ∧ x ≤ 1 := by
  intro x hx
  simp only [zScoreNormalize] at hx
  split at hx
  · obtain ⟨v, _, rfl⟩ := List.mem_map.mp hx
    have he : 0 < Real.exp (-((v - seriesMean s) / seriesStd s)) := Real.exp_pos _
    constructor
    · apply div_nonneg
      · norm_num
      · linarith
    · rw [div_le_one (by linarith)]
      linarith
  · have hx2 := List.eq_of_mem_replicate hx
    subst hx2
    norm_num

/-- C4: for every non-empty series and both normalization methods, every
element of the result of `normalize_risk_factor` lies in `[0, 1]`.  (The
source never mutates its input: the pandas expressions build new Series, and
the embedding is a pure function of the input list.) -/
theorem normalize_risk_factor_range (series : List ℝ) (hne : series ≠ [])
    (out1 out2 : List ℝ)
    (h1 : normalize_risk_factor series "min_max" = .ok out1)
    (h2 : normalize_risk_factor series "z_score" = .ok out2) :
    (∀ x ∈ out1, 0 ≤ x ∧ x ≤ 1) ∧ (∀ x ∈ out2, 0 ≤ x ∧ x ≤ 1) := by
  have e1 : (Except.ok (minMaxNormalize series) : Except String (List ℝ)) = .ok out1 := by
    rw [← h1]; simp [normalize_risk_factor]
  have e2 : (Except.ok (zScoreNormalize series) : Except String (List ℝ)) = .ok out2 := by
    rw [← h2]; simp [normalize_risk_factor]
  have e1' := Except.ok.inj e1
  have e2' := Except.ok.inj e2
  subst e1'
  subst e2'
  exact ⟨minMaxNormalize_mem_range series, zScoreNormalize_mem_range series⟩

/-- Witness for C4 at the concrete series `[1, 2]`. -/
theorem normalize_risk_factor_range_witness :
    (∀ x ∈ minMaxNormalize ([1, 2] : List ℝ), 0 ≤ x ∧ x ≤ 1) ∧
    (∀ x ∈ zScoreNormalize ([1, 2] : List ℝ), 0 ≤ x ∧ x ≤ 1) :=
  normalize_risk_factor_range [1, 2] (by simp) _ _
    (by simp [normalize_risk_factor]) (by simp [normalize_risk_factor])

/-- C5: a non-empty constant series (a singleton included) normalizes to all
`0` under `min_max` and to all `0.5` under `z_score`. -/
theorem degenerate_normalization (s : List ℝ) (c : ℝ) (hne : s ≠ [])
    (hc : ∀ x ∈ s, x = c) :
    normalize_risk_factor s "min_max" = .ok (List.replicate s.length 0) ∧
    normalize_risk_factor s "z_score" = .ok (List.replicate s.length (1 / 2)) := by
  constructor
  · have hmm := minMaxNormalize_const s c hne hc
    simp [normalize_risk_factor, hmm]
  · have hz := zScoreNormalize_const s c hne hc
    simp [normalize_risk_factor, hz]

/-- Witness for C5 at the constant series `[3, 3]`. -/
theorem degenerate_normalization_witness :
    normalize_risk_factor [3, 3] "min_max" = .ok (List.replicate 2 0) ∧
    normalize_risk_factor [3, 3] "z_score" = .ok (List.replicate 2 (1 / 2)) := by
  have h := degenerate_normalization [3, 3] 3 (by simp)
    (by intro x hx; simp at hx; exact hx)
  simpa using h

theorem sum_map_div_q (l : List ℚ) (c : ℚ) :
    (l.map (fun x => x / c)).sum = l.sum / c := by
  induction l with
  | nil => simp
  | cons a t ih => simp [ih, add_div]

/-- C6 (amended): a non-empty weight mapping with positive sum is normalized
at construction to sum exactly 1, entrywise dividing by the raw total; a
non-empty zero-sum mapping is stored unchanged.  The empty mapping is falsy
in Python (risk_map.py line 76), so it is replaced by the default weights
exactly as if no mapping had been supplied, and these normalize to sum 1.
The construction is total, so it never raises. -/
theorem weight_normalization (data : Option ZipTable) (ws : List (String × ℚ)) :
    (ws ≠ [] → 0 < (ws.map (fun p => p.2)).sum →
      (((riskMapInit data (some ws)).risk_weights.map (fun p => p.2)).sum = 1 ∧
       ∀ (i : ℕ) (p : String × ℚ), ws[i]? = some p →
         (riskMapInit data (some ws)).risk_weights[i]? =
           some (p.1, p.2 / (ws.map (fun p => p.2)).sum))) ∧
    (ws ≠ [] → (ws.map (fun p => p.2)).sum = 0 →
      (riskMapInit data (some ws)).risk_weights = ws) ∧
    ((riskMapInit data (some ([] : List (String × ℚ)))).risk_weights =
        (riskMapInit data none).risk_weights ∧
     ((riskMapInit data (some ([] : List (String × ℚ)))).risk_weights.map
        (fun p => p.2)).sum = 1) := by
  refine ⟨?_, ?_, rfl, ?_⟩
  case refine_3 =>
    have hW : (riskMapInit data (some ([] : List (String × ℚ)))).risk_weights =
        normalize_weights default_weights := rfl
    rw [hW]
    with_unfolding_all decide
  · intro hne hpos
    have hW : (riskMapInit data (some ws)).risk_weights = normalize_weights ws := by
      simp [riskMapInit, hne]
    rw [hW]
    simp only [normalize_weights]
    rw [if_pos hpos]
    constructor
    · rw [List.map_map]
      have hcomp : ((fun p : String × ℚ => p.2) ∘
          (fun p : String × ℚ => (p.1, p.2 / (ws.map (fun p => p.2)).sum))) =
          ((fun x => x / (ws.map (fun p => p.2)).sum) ∘ (fun p : String × ℚ => p.2)) := rfl
      rw [hcomp, ← List.map_map, sum_map_div_q]
      exact div_self (ne_of_gt hpos)
    · intro i p hp
      rw [List.getElem?_map, hp]
      rfl
  · intro hne h0
    have hW : (riskMapInit data (some ws)).risk_weights = normalize_weights ws := by
      simp [riskMapInit, hne]
    rw [hW]
    simp only [normalize_weights]
    rw [if_neg (by rw [h0]; exact lt_irrefl 0)]

/-- C6 counterexample: the empty weight mapping has raw sum `0`, yet it is
not stored unchanged — Python's falsy-dict test on risk_map.py line 76
replaces `{}` with the (normalized) default weights, so the stored mapping
is non-empty. -/
theorem weight_normalization_empty_mapping :
    ((([] : List (String × ℚ)).map (fun p => p.2)).sum = 0) ∧
    (riskMapInit none (some ([] : List (String × ℚ)))).risk_weights ≠ [] ∧
    (riskMapInit none (some ([] : List (String × ℚ)))).risk_weights =
      normalize_weights default_weights := by
  refine ⟨rfl, ?_, rfl⟩
  with_unfolding_all decide

/-- Witness for C6 at the mapping `[("a", 1), ("b", 3)]`. -/
theorem weight_normalization_witness :
    ((riskMapInit none (some [("a", 1), ("b", 3)])).risk_weights.map
      (fun p => p.2)).sum = 1 :=
  ((weight_normalization none [("a", 1), ("b", 3)]).1 (by simp) (by norm_num)).1

/-- C10: `top_n = 0` is falsy in Python, so `get_high_risk_zips` with
`top_n = 0` behaves exactly as if `top_n` were not given: the threshold
filter, sorted by score descending — not an empty result. -/
theorem top_n_zero_is_threshold (s : RiskMapState) (thr : ℚ) :
    get_high_risk_zips s thr (some 0) = get_high_risk_zips s thr none ∧
    (∀ rt, s.risk_scores = some rt →
      ∃ l, (get_high_risk_zips s thr (some 0)).1 = .ok l ∧
        List.Sorted scoreGE l ∧
        l.Perm ((rt.risk_score.enum).filter (fun r => thr ≤ r.2))) := by
  constructor
  · unfold get_high_risk_zips
    cases s.risk_scores with
    | none => rfl
    | some rt => simp
  · intro rt h
    refine ⟨sortByScoreDesc ((rt.risk_score.enum).filter (fun r => thr ≤ r.2)),
      ?_, ?_, ?_⟩
    · unfold get_high_risk_zips
      rw [h]
      simp
    · exact List.sorted_insertionSort scoreGE _
    · exact List.perm_insertionSort scoreGE _

/-- Witness for C10 at the scored engine `exScored`. -/
theorem top_n_zero_is_threshold_witness :
    ∃ l, (get_high_risk_zips exScored 0 (some 0)).1 = .ok l ∧
      List.Sorted scoreGE l ∧
      l.Perm ((exRTq.risk_score.enum).filter (fun r => (0 : ℚ) ≤ r.2)) :=
  (top_n_zero_is_threshold exScored 0).2 exRTq rfl

/-! Inversion of a successful scoring call. -/

theorem calculate_risk_scores_ok {s : RiskMapState} {rt : ResultTable}
    (h : (calculate_risk_scores s).1 = .ok rt) :
    ∃ t dens t2, s.zip_code_data = some t ∧ table_pop_density t = .ok (dens, t2) ∧
      rt = mkResults s.risk_weights t2 dens := by
  unfold calculate_risk_scores at h
  split at h
  · simp at h
  · rename_i t hd
    split at h
    · simp at h
    · rename_i dens t2 hp
      simp at h
      exact ⟨t, dens, t2, hd, hp, h.symm⟩

theorem risk_category_map {ws : List (String × ℚ)} {t : ZipTable} {dens : List ℚ} :
    (mkResults ws t dens).risk_category =
      (mkResults ws t dens).risk_score.map riskCategory := rfl

/-- C1 (amended): `pd.cut` with `bins=[0, 0.25, 0.5, 0.75, 1.0]` uses
half-open bins `(lo, hi]` and does not include the left edge of the first
bin; so over the scores in `(0, 1]` produced by `calculate_risk_scores`
exactly one category applies, with boundaries `(0, 0.25] → Low`,
`(0.25, 0.5] → Medium`, `(0.5, 0.75] → High`, `(0.75, 1] → Very High`,
while a score of exactly `0` receives no category. -/
theorem classification_buckets (s : RiskMapState) (rt : ResultTable) (i : ℕ)
    (v : ℚ) (hok : (calculate_risk_scores s).1 = .ok rt)
    (hv : rt.risk_score[i]? = some v) (h0 : 0 < v) (h1 : v ≤ 1) :
    rt.risk_category[i]? = some (riskCategory v) ∧
    (riskCategory v).isSome = true ∧
    (v ≤ 1/4 → riskCategory v = some .Low) ∧
    (1/4 < v → v ≤ 1/2 → riskCategory v = some .Medium) ∧
    (1/2 < v → v ≤ 3/4 → riskCategory v = some .High) ∧
    (3/4 < v → riskCategory v = some .VeryHigh) := by
  obtain ⟨t, dens, t2, hd, hp, rfl⟩ := calculate_risk_scores_ok hok
  refine ⟨?_, ?_, ?_, ?_, ?_, ?_⟩
  · rw [risk_category_map, List.getElem?_map, hv]
    rfl
  · unfold riskCategory
    by_cases hA : v ≤ 1/4
    · rw [if_pos ⟨h0, hA⟩]; rfl
    · by_cases hB : v ≤ 1/2
      · rw [if_neg (fun hc => hA hc.2), if_pos ⟨not_le.mp hA, hB⟩]; rfl
      · by_cases hC : v ≤ 3/4
        · rw [if_neg (fun hc => hA hc.2), if_neg (fun hc => hB hc.2),
            if_pos ⟨not_le.mp hB, hC⟩]
          rfl
        · rw [if_neg (fun hc => hA hc.2), if_neg (fun hc => hB hc.2),
            if_neg (fun hc => hC hc.2), if_pos ⟨not_le.mp hC, h1⟩]
          rfl
  · intro h
    unfold riskCategory
    rw [if_pos ⟨h0, h⟩]
  · intro ha hb
    unfold riskCategory
    rw [if_neg (fun hc => absurd hc.2 (not_le.mpr ha)), if_pos ⟨ha, hb⟩]
  · intro ha hb
    unfold riskCategory
    have ha4 : ¬ v ≤ 1/4 := not_le.mpr (lt_trans (by norm_num) ha)
    rw [if_neg (fun hc => ha4 hc.2), if_neg (fun hc => absurd hc.2 (not_le.mpr ha)),
      if_pos ⟨ha, hb⟩]
  · intro ha
    unfold riskCategory
    have ha4 : ¬ v ≤ 1/4 := not_le.mpr (lt_trans (by norm_num) ha)
    have ha2 : ¬ v ≤ 1/2 := not_le.mpr (lt_trans (by norm_num) ha)
    rw [if_neg (fun hc => ha4 hc.2), if_neg (fun hc => ha2 hc.2),
      if_neg (fun hc => absurd hc.2 (not_le.mpr ha)), if_pos ⟨ha, h1⟩]

/-- C1 counterexample: on `exS1` the first row's produced `risk_score` is
exactly `0` — inside the claimed domain `[0, 1]` — yet its `risk_category`
is NaN (`none`), not `Low`: the first bucket does not include `0`. -/
theorem classification_zero_score_uncategorized :
    (okScores exS1).map (fun p => (p.1[0]?, p.2[0]?)) = some (some 0, some none) := by
  with_unfolding_all decide

/-- Witness for the amended C1 at row 1 of `exS1` (score `3/10`). -/
theorem classification_buckets_witness :
    (calculate_risk_scores exS1).1 = .ok exRT1 ∧
    exRT1.risk_category[1]? = some (riskCategory (3/10)) ∧
    riskCategory (3/10) = some RiskCategory.Medium := by
  have hok : (calculate_risk_scores exS1).1 = .ok exRT1 := rfl
  have hv : exRT1.risk_score[1]? = some (3/10) := by with_unfolding_all decide
  have h := classification_buckets exS1 exRT1 1 (3/10) hok hv (by norm_num) (by norm_num)
  exact ⟨hok, h.1, h.2.2.2.1 (by norm_num) (by norm_num)⟩


/-! Frame and error-path facts about the stateful operations. -/

theorem table_pop_density_cases (t : ZipTable) :
    (∃ ar, t.area_km2 = some ar ∧
      table_pop_density t = .ok (densityOf t.population ar, t)) ∨
    (∃ g, t.area_km2 = none ∧ t.geometry = some g ∧
      table_pop_density t =
        .ok (densityOf t.population (g.map (fun x => x / 1000000)),
          { t with area_km2 := some (g.map (fun x => x / 1000000)) })) ∨
    (t.area_km2 = none ∧ t.geometry = none ∧
      table_pop_density t =
        .error "Area column not found and cannot calculate from geometry.") := by
  rcases ha : t.area_km2 with _ | ar
  · rcases hg : t.geometry with _ | g
    · exact Or.inr (Or.inr ⟨rfl, rfl, by simp only [table_pop_density, ha, hg]⟩)
    · exact Or.inr (Or.inl ⟨g, rfl, rfl, by simp only [table_pop_density, ha, hg]⟩)
  · exact Or.inl ⟨ar, rfl, by simp only [table_pop_density, ha]⟩

theorem calculate_risk_scores_eval {s : RiskMapState} {t : ZipTable}
    {dens : List ℚ} {t2 : ZipTable} (hd : s.zip_code_data = some t)
    (hp : table_pop_density t = .ok (dens, t2)) :
    calculate_risk_scores s =
      (.ok (mkResults s.risk_weights t2 dens),
       { s with
         zip_code_data := some t2
         risk_scores := some (mkResults s.risk_weights t2 dens)
         risk_map_gdf := some (t2, mkResults s.risk_weights t2 dens) }) := by
  simp only [calculate_risk_scores, hd, hp]

theorem calculate_population_density_eval {s : RiskMapState} {t : ZipTable}
    {dens : List ℚ} {t2 : ZipTable} (hd : s.zip_code_data = some t)
    (hp : table_pop_density t = .ok (dens, t2)) :
    calculate_population_density s = (.ok dens, { s with zip_code_data := some t2 }) := by
  simp only [calculate_population_density, hd, hp]

theorem calculate_risk_scores_err_data {s : RiskMapState}
    (hd : s.zip_code_data = none) :
    calculate_risk_scores s =
      (.error "No zip code data loaded. Use load_zip_code_data() first.", s) := by
  simp only [calculate_risk_scores, hd]

theorem calculate_population_density_err_data {s : RiskMapState}
    (hd : s.zip_code_data = none) :
    calculate_population_density s =
      (.error "No zip code data loaded. Use load_zip_code_data() first.", s) := by
  simp only [calculate_population_density, hd]

theorem calculate_risk_scores_err_area {s : RiskMapState} {t : ZipTable} {e : String}
    (hd : s.zip_code_data = some t) (hp : table_pop_density t = .error e) :
    calculate_risk_scores s = (.error e, s) := by
  simp only [calculate_risk_scores, hd, hp]

theorem calculate_population_density_err_area {s : RiskMapState} {t : ZipTable}
    {e : String} (hd : s.zip_code_data = some t)
    (hp : table_pop_density t = .error e) :
    calculate_population_density s = (.error e, s) := by
  simp only [calculate_population_density, hd, hp]

/-- C9: every failing operation leaves the engine state — in particular the
cached result table, which therefore stays queryable — exactly as it was:
the source raises before any assignment to `self`, and `get_high_risk_zips`
never writes the state at all. -/
theorem failing_calls_preserve_state (s : RiskMapState) (e : String) (thr : ℚ)
    (tn : Option ℤ) :
    ((calculate_risk_scores s).1 = .error e → (calculate_risk_scores s).2 = s) ∧
    ((calculate_population_density s).1 = .error e →
      (calculate_population_density s).2 = s) ∧
    ((get_high_risk_zips s thr tn).2 = s) ∧
    ((calculate_risk_scores s).1 = .error e →
      get_high_risk_zips (calculate_risk_scores s).2 thr tn =
        get_high_risk_zips s thr tn) := by
  have h1 : (calculate_risk_scores s).1 = .error e → (calculate_risk_scores s).2 = s := by
    intro he
    rcases hd : s.zip_code_data with _ | t
    · rw [calculate_risk_scores_err_data hd]
    · rcases table_pop_density_cases t with ⟨ar, _, hp⟩ | ⟨g, _, _, hp⟩ | ⟨_, _, hp⟩
      · rw [calculate_risk_scores_eval hd hp] at he
        simp at he
      · rw [calculate_risk_scores_eval hd hp] at he
        simp at he
      · rw [calculate_risk_scores_err_area hd hp]
  refine ⟨h1, ?_, ?_, fun he => by rw [h1 he]⟩
  · intro he
    rcases hd : s.zip_code_data with _ | t
    · rw [calculate_population_density_err_data hd]
    · rcases table_pop_density_cases t with ⟨ar, _, hp⟩ | ⟨g, _, _, hp⟩ | ⟨_, _, hp⟩
      · rw [calculate_population_density_eval hd hp] at he
        simp at he
      · rw [calculate_population_density_eval hd hp] at he
        simp at he
      · rw [calculate_population_density_err_area hd hp]
  · unfold get_high_risk_zips
    rcases hrs : s.risk_scores with _ | rt
    · rfl
    · rfl

/-- Witness for C9: on an engine with no loaded table but a cached result,
both computing calls fail and the whole state — the cached result included —
is untouched, and ranking still answers from the old cache. -/
theorem failing_calls_preserve_state_witness :
    (calculate_risk_scores exS9).2 = exS9 ∧
    (calculate_population_density exS9).2 = exS9 ∧
    (get_high_risk_zips exS9 (7/10) none).2 = exS9 ∧
    get_high_risk_zips (calculate_risk_scores exS9).2 (7/10) none =
      get_high_risk_zips exS9 (7/10) none := by
  have h := failing_calls_preserve_state exS9
    "No zip code data loaded. Use load_zip_code_data() first." (7/10) none
  exact ⟨h.1 rfl, h.2.1 rfl, h.2.2.1, h.2.2.2 rfl⟩

/-- C8 (amended): `calculate_population_density` (and through it
`calculate_risk_scores`) leaves the loaded table unchanged — except that when
the `area_km2` column is absent and geometry is present, the derived area
column is written into the stored table (risk_map.py line 149).  No other
column is added, removed or overwritten, and `calculate_population_density`
touches no other state component. -/
theorem area_derivation_frame (s : RiskMapState) :
    ((calculate_population_density s).2.risk_scores = s.risk_scores ∧
     (calculate_population_density s).2.risk_map_gdf = s.risk_map_gdf ∧
     (calculate_population_density s).2.risk_weights = s.risk_weights) ∧
    ((calculate_population_density s).2.zip_code_data = s.zip_code_data ∨
      ∃ t g, s.zip_code_data = some t ∧ t.area_km2 = none ∧ t.geometry = some g ∧
        (calculate_population_density s).2.zip_code_data =
          some { t with area_km2 := some (g.map (fun x => x / 1000000)) }) ∧
    ((calculate_risk_scores s).2.zip_code_data = s.zip_code_data ∨
      ∃ t g, s.zip_code_data = some t ∧ t.area_km2 = none ∧ t.geometry = some g ∧
        (calculate_risk_scores s).2.zip_code_data =
          some { t with area_km2 := some (g.map (fun x => x / 1000000)) }) := by
  rcases hd : s.zip_code_data with _ | t
  · rw [calculate_population_density_err_data hd, calculate_risk_scores_err_data hd]
    exact ⟨⟨rfl, rfl, rfl⟩, Or.inl hd, Or.inl hd⟩
  · rcases table_pop_density_cases t with ⟨ar, ha, hp⟩ | ⟨g, ha, hg, hp⟩ | ⟨ha, hg, hp⟩
    · rw [calculate_population_density_eval hd hp, calculate_risk_scores_eval hd hp]
      exact ⟨⟨rfl, rfl, rfl⟩, Or.inl rfl, Or.inl rfl⟩
    · rw [calculate_population_density_eval hd hp, calculate_risk_scores_eval hd hp]
      exact ⟨⟨rfl, rfl, rfl⟩, Or.inr ⟨t, g, rfl, ha, hg, rfl⟩,
        Or.inr ⟨t, g, rfl, ha, hg, rfl⟩⟩
    · rw [calculate_population_density_err_area hd hp,
        calculate_risk_scores_err_area hd hp]
      exact ⟨⟨rfl, rfl, rfl⟩, Or.inl hd, Or.inl hd⟩

/-- C8 counterexample: on `exS8` (no `area_km2` column, geometry present)
both operations write the derived area column into the stored table, so the
table is not read-only. -/
theorem area_derivation_mutates :
    (calculate_population_density exS8).2.zip_code_data ≠ exS8.zip_code_data ∧
    (calculate_risk_scores exS8).2.zip_code_data ≠ exS8.zip_code_data := by
  with_unfolding_all decide

theorem length_sortByScoreDesc (l : List (ℕ × ℚ)) :
    (sortByScoreDesc l).length = l.length :=
  (List.perm_insertionSort scoreGE l).length_eq

theorem sorted_sortByScoreDesc (l : List (ℕ × ℚ)) :
    List.Sorted scoreGE (sortByScoreDesc l) :=
  List.sorted_insertionSort scoreGE l

theorem perm_sortByScoreDesc (l : List (ℕ × ℚ)) :
    (sortByScoreDesc l).Perm l :=
  List.perm_insertionSort scoreGE l

/-- C7: with a cached result and a positive `top_n = k`,
`get_high_risk_zips` ignores `threshold` entirely and returns exactly
`min k n` rows — rows whose scores dominate every omitted row — sorted by
score descending; with `top_n` omitted it returns exactly the rows with
`risk_score ≥ threshold`, sorted by score descending. -/
theorem top_n_ranking (s : RiskMapState) (rt : ResultTable) (thr thr2 : ℚ) (k : ℤ)
    (hrt : s.risk_scores = some rt) (hk : 0 < k) :
    (get_high_risk_zips s thr (some k)).1 = (get_high_risk_zips s thr2 (some k)).1 ∧
    (∃ l, (get_high_risk_zips s thr (some k)).1 = .ok l ∧
      l.length = min k.toNat rt.risk_score.length ∧
      List.Sorted scoreGE l ∧
      ∃ rest, (l ++ rest).Perm rt.risk_score.enum ∧
        ∀ x ∈ l, ∀ y ∈ rest, y.2 ≤ x.2) ∧
    (∃ l2, (get_high_risk_zips s thr none).1 = .ok l2 ∧
      List.Sorted scoreGE l2 ∧
      l2.Perm ((rt.risk_score.enum).filter (fun r => thr ≤ r.2))) := by
  have hk0 : k ≠ 0 := hk.ne'
  have hred : ∀ thr0 : ℚ, (get_high_risk_zips s thr0 (some k)).1 =
      .ok (sortByScoreDesc ((sortByScoreDesc rt.risk_score.enum).take k.toNat)) := by
    intro thr0
    simp only [get_high_risk_zips, hrt]
    rw [if_pos hk0]
  refine ⟨by rw [hred thr, hred thr2], ?_, ?_⟩
  · refine ⟨sortByScoreDesc ((sortByScoreDesc rt.risk_score.enum).take k.toNat),
      hred thr, ?_, sorted_sortByScoreDesc _, ?_⟩
    · rw [length_sortByScoreDesc, List.length_take, length_sortByScoreDesc,
        List.enum_length]
    · refine ⟨(sortByScoreDesc rt.risk_score.enum).drop k.toNat, ?_, ?_⟩
      · have hp1 : List.Perm
            (sortByScoreDesc ((sortByScoreDesc rt.risk_score.enum).take k.toNat) ++
              (sortByScoreDesc rt.risk_score.enum).drop k.toNat)
            ((sortByScoreDesc rt.risk_score.enum).take k.toNat ++
              (sortByScoreDesc rt.risk_score.enum).drop k.toNat) :=
          List.Perm.append_right _ (perm_sortByScoreDesc _)
        have hp2 : (sortByScoreDesc rt.risk_score.enum).take k.toNat ++
            (sortByScoreDesc rt.risk_score.enum).drop k.toNat =
            sortByScoreDesc rt.risk_score.enum := List.take_append_drop _ _
        refine hp1.trans ?_
        rw [hp2]
        exact perm_sortByScoreDesc _
      · intro x hx y hy
        have hx2 : x ∈ (sortByScoreDesc rt.risk_score.enum).take k.toNat :=
          (perm_sortByScoreDesc _).mem_iff.mp hx
        exact (sorted_sortByScoreDesc
          rt.risk_score.enum).rel_of_mem_take_of_mem_drop hx2 hy
  · refine ⟨sortByScoreDesc ((rt.risk_score.enum).filter (fun r => thr ≤ r.2)),
      ?_, sorted_sortByScoreDesc _, perm_sortByScoreDesc _⟩
    simp only [get_high_risk_zips, hrt]

/-- Witness for C7 on the scored engine `exScored` with `top_n = 2` and the
thresholds 0 and 1. -/
theorem top_n_ranking_witness :
    (get_high_risk_zips exScored 0 (some 2)).1 =
      (get_high_risk_zips exScored 1 (some 2)).1 ∧
    (∃ l, (get_high_risk_zips exScored 0 (some 2)).1 = .ok l ∧
      l.length = min (Int.toNat 2) exRTq.risk_score.length ∧
      List.Sorted scoreGE l ∧
      ∃ rest, (l ++ rest).Perm exRTq.risk_score.enum ∧
        ∀ x ∈ l, ∀ y ∈ rest, y.2 ≤ x.2) ∧
    (∃ l2, (get_high_risk_zips exScored 0 none).1 = .ok l2 ∧
      List.Sorted scoreGE l2 ∧
      l2.Perm ((exRTq.risk_score.enum).filter (fun r => (0 : ℚ) ≤ r.2))) :=
  top_n_ranking exScored exRTq 0 1 2 rfl (by norm_num)

/-! Plumbing lemmas for the factor-monotonicity claims. -/

theorem wget_nonneg (ws : List (String × ℚ)) (h : weightsNonneg ws = true)
    (k : String) : 0 ≤ wget ws k := by
  unfold wget
  cases hf : ws.find? (fun p => p.1 = k) with
  | none => exact le_refl 0
  | some p =>
    have hmem : p ∈ ws := List.mem_of_find?_eq_some hf
    have hall := List.all_eq_true.mp h p hmem
    simpa using hall

theorem wf_col {t : ZipTable} (h : t.wf = true) :
    (∀ c, t.area_km2 = some c → c.length = t.population.length) ∧
    (∀ c, t.bird_density = some c → c.length = t.population.length) ∧
    (∀ c, t.water_proximity = some c → c.length = t.population.length) ∧
    (∀ c, t.healthcare_capacity = some c → c.length = t.population.length) ∧
    (∀ c, t.vulnerability_index = some c → c.length = t.population.length) ∧
    (∀ c, t.geometry = some c → c.length = t.population.length) := by
  unfold ZipTable.wf at h
  simp only [Bool.and_eq_true] at h
  obtain ⟨⟨⟨⟨⟨h1, h2⟩, h3⟩, h4⟩, h5⟩, h6⟩ := h
  refine ⟨fun c hc => ?_, fun c hc => ?_, fun c hc => ?_, fun c hc => ?_,
    fun c hc => ?_, fun c hc => ?_⟩
  · rw [hc] at h1; simpa using h1
  · rw [hc] at h2; simpa using h2
  · rw [hc] at h3; simpa using h3
  · rw [hc] at h4; simpa using h4
  · rw [hc] at h5; simpa using h5
  · rw [hc] at h6; simpa using h6

theorem areasNonneg_unpack {t : ZipTable} (h : t.areasNonneg = true) :
    (∀ c, t.area_km2 = some c → ∀ a ∈ c, 0 ≤ a) ∧
    (∀ c, t.geometry = some c → ∀ a ∈ c, 0 ≤ a) := by
  unfold ZipTable.areasNonneg at h
  simp only [Bool.and_eq_true] at h
  obtain ⟨h1, h2⟩ := h
  constructor
  · intro c hc a hac
    rw [hc] at h1
    simp only [Option.all_some, List.all_eq_true, decide_eq_true_eq] at h1
    exact h1 a hac
  · intro c hc a hac
    rw [hc] at h2
    simp only [Option.all_some, List.all_eq_true, decide_eq_true_eq] at h2
    exact h2 a hac

theorem getElem?_isSome_of_len {α : Type} {l : List α} {n i : ℕ}
    (hl : l.length = n) (hi : i < n) : ∃ x, l[i]? = some x := by
  have hi2 : i < l.length := by rw [hl]; exact hi
  exact ⟨_, List.getElem?_eq_some_iff.mpr ⟨hi2, rfl⟩⟩

theorem fillna_length (c : List (Option ℚ)) : (fillna c).length = c.length :=
  List.length_map _ _

theorem fillna_getElem {cl : List (Option ℚ)} {i : ℕ} {v : ℚ}
    (h : cl[i]? = some (some v)) : (fillna cl)[i]? = some v := by
  simp [fillna, List.getElem?_map, h]

theorem fillna_set (c : List (Option ℚ)) (i : ℕ) (x : ℚ) :
    fillna (c.set i (some x)) = (fillna c).set i x := by
  simp [fillna, List.map_set]

theorem densityOf_length (pop ar : List ℚ) :
    (densityOf pop ar).length = min pop.length ar.length := by
  simp [densityOf]

theorem densityOf_getElem {pop ar : List ℚ} {i : ℕ} {p a : ℚ}
    (hp : pop[i]? = some p) (ha : ar[i]? = some a) :
    (densityOf pop ar)[i]? = some (if a = 0 then 0 else p / a) := by
  simp [densityOf, List.getElem?_zipWith', hp, ha]

theorem zipWith_set_left {α β γ : Type} (f : α → β → γ) :
    ∀ (l : List α) (r : List β) (i : ℕ) (x : α) (b : β), r[i]? = some b →
      List.zipWith f (l.set i x) r = (List.zipWith f l r).set i (f x b) := by
  intro l
  induction l with
  | nil => intro r i x b h; simp
  | cons a t ih =>
    intro r i x b h
    cases r with
    | nil => simp at h
    | cons c u =>
      cases i with
      | zero =>
        have hc : c = b := by simpa using h
        subst hc
        rfl
      | succ j =>
        have hj : u[j]? = some b := by simpa using h
        show f a c :: List.zipWith f (t.set j x) u =
          f a c :: (List.zipWith f t u).set j (f x b)
        rw [ih u j x b hj]

theorem minMaxNormalize_getElem {α : Type} [LinearOrderedField α] [Inhabited α]
    {s : List α} {i : ℕ} {a : α} (h : s[i]? = some a) :
    (minMaxNormalize s)[i]? = some (nmval a (listMin s) (listMax s)) := by
  rw [minMaxNormalize_eq_map, List.getElem?_map, h]
  rfl

theorem map_one_sub_getElem {l : List ℚ} {i : ℕ} {b : ℚ} (h : l[i]? = some b) :
    (l.map (fun x => 1 - x))[i]? = some (1 - b) := by
  simp [List.getElem?_map, h]

theorem factorRawNorm_entry_eq (col : Option (List (Option ℚ))) (n n2 i : ℕ)
    (hnn : n = n2) (hi : i < n)
    (hlen : ∀ c, col = some c → c.length = n) :
    ∃ x, (factorRawNorm col n).2[i]? = some x ∧
      (factorRawNorm col n2).2[i]? = some x := by
  cases col with
  | none =>
    subst hnn
    exact ⟨0, by simp [factorRawNorm, List.getElem?_replicate, hi],
      by simp [factorRawNorm, List.getElem?_replicate, hi]⟩
  | some c =>
    have hl : (factorRawNorm (some c) n).2.length = n := by
      simp [factorRawNorm, length_minMaxNormalize, fillna_length, hlen c rfl]
    obtain ⟨x, hx⟩ := getElem?_isSome_of_len hl hi
    exact ⟨x, hx, hx⟩

theorem healthcareRawNorm_entry_eq (col : Option (List (Option ℚ))) (n n2 i : ℕ)
    (hnn : n = n2) (hi : i < n)
    (hlen : ∀ c, col = some c → c.length = n) :
    ∃ x, (healthcareRawNorm col n).2[i]? = some x ∧
      (healthcareRawNorm col n2).2[i]? = some x := by
  cases col with
  | none =>
    subst hnn
    exact ⟨0, by simp [healthcareRawNorm, List.getElem?_replicate, hi],
      by simp [healthcareRawNorm, List.getElem?_replicate, hi]⟩
  | some c =>
    have hl : (healthcareRawNorm (some c) n).2.length = n := by
      simp [healthcareRawNorm, List.length_map, length_minMaxNormalize,
        fillna_length, hlen c rfl]
    obtain ⟨x, hx⟩ := getElem?_isSome_of_len hl hi
    exact ⟨x, hx, hx⟩

theorem weightedSum_getElem {w1 w2 w3 w4 w5 : ℚ} {c1 c2 c3 c4 c5 : List ℚ}
    {i : ℕ} {x1 x2 x3 x4 x5 : ℚ} (h1 : c1[i]? = some x1) (h2 : c2[i]? = some x2)
    (h3 : c3[i]? = some x3) (h4 : c4[i]? = some x4) (h5 : c5[i]? = some x5) :
    (weightedSum w1 w2 w3 w4 w5 c1 c2 c3 c4 c5)[i]? =
      some (x1 * w1 + (x2 * w2 + (x3 * w3 + (x4 * w4 + x5 * w5)))) := by
  simp [weightedSum, List.getElem?_zipWith', List.getElem?_map, h1, h2, h3, h4, h5]

/-- Monotonicity of the composite-score entry under entrywise-monotone norm
columns, with non-negative weights. -/
theorem mkResults_score_mono {ws : List (String × ℚ)}
    (hw : weightsNonneg ws = true) {ta tb : ZipTable} {densa densb : List ℚ}
    {i : ℕ} {x1 x2 x3 x4 x5 y1 y2 y3 y4 y5 : ℚ}
    (ha1 : (minMaxNormalize densa)[i]? = some x1)
    (ha2 : (factorRawNorm ta.bird_density ta.population.length).2[i]? = some x2)
    (ha3 : (factorRawNorm ta.water_proximity ta.population.length).2[i]? = some x3)
    (ha4 : (healthcareRawNorm ta.healthcare_capacity ta.population.length).2[i]? = some x4)
    (ha5 : (factorRawNorm ta.vulnerability_index ta.population.length).2[i]? = some x5)
    (hb1 : (minMaxNormalize densb)[i]? = some y1)
    (hb2 : (factorRawNorm tb.bird_density tb.population.length).2[i]? = some y2)
    (hb3 : (factorRawNorm tb.water_proximity tb.population.length).2[i]? = some y3)
    (hb4 : (healthcareRawNorm tb.healthcare_capacity tb.population.length).2[i]? = some y4)
    (hb5 : (factorRawNorm tb.vulnerability_index tb.population.length).2[i]? = some y5)
    (hx1 : x1 ≤ y1) (hx2 : x2 ≤ y2) (hx3 : x3 ≤ y3) (hx4 : x4 ≤ y4)
    (hx5 : x5 ≤ y5) :
    ∃ r r2, (mkResults ws ta densa).risk_score[i]? = some r ∧
      (mkResults ws tb densb).risk_score[i]? = some r2 ∧ r ≤ r2 := by
  refine ⟨_, _, weightedSum_getElem ha1 ha2 ha3 ha4 ha5,
    weightedSum_getElem hb1 hb2 hb3 hb4 hb5, ?_⟩
  have k1 := wget_nonneg ws hw "population_density"
  have k2 := wget_nonneg ws hw "bird_density"
  have k3 := wget_nonneg ws hw "water_proximity"
  have k4 := wget_nonneg ws hw "healthcare_capacity"
  have k5 := wget_nonneg ws hw "vulnerability_index"
  have m1 := mul_le_mul_of_nonneg_right hx1 k1
  have m2 := mul_le_mul_of_nonneg_right hx2 k2
  have m3 := mul_le_mul_of_nonneg_right hx3 k3
  have m4 := mul_le_mul_of_nonneg_right hx4 k4
  have m5 := mul_le_mul_of_nonneg_right hx5 k5
  linarith

/-- Area resolution applies identically to any table sharing `t`'s area and
geometry columns (in particular to a table that differs from `t` only in a
factor column), yields an area column of full length with non-negative
entries, and leaves all factor columns untouched. -/
theorem resolve_area (t : ZipTable) (hwf : t.wf = true)
    (hareas : t.areasNonneg = true)
    (hres : (t.area_km2.isSome || t.geometry.isSome) = true) :
    ∃ ar : List ℚ, ar.length = t.population.length ∧ (∀ a ∈ ar, 0 ≤ a) ∧
      ∀ u : ZipTable, u.area_km2 = t.area_km2 → u.geometry = t.geometry →
        ∃ t2u : ZipTable,
          table_pop_density u = .ok (densityOf u.population ar, t2u) ∧
          t2u.population = u.population ∧
          t2u.bird_density = u.bird_density ∧
          t2u.water_proximity = u.water_proximity ∧
          t2u.healthcare_capacity = u.healthcare_capacity ∧
          t2u.vulnerability_index = u.vulnerability_index := by
  rcases ha : t.area_km2 with _ | ar0
  · rcases hg : t.geometry with _ | g
    · rw [ha, hg] at hres
      simp at hres
    · refine ⟨g.map (fun x => x / 1000000), ?_, ?_, ?_⟩
      · rw [List.length_map]
        exact (wf_col hwf).2.2.2.2.2 g hg
      · intro a hag
        obtain ⟨x, hx, rfl⟩ := List.mem_map.mp hag
        exact div_nonneg ((areasNonneg_unpack hareas).2 g hg x hx) (by norm_num)
      · intro u hua hug
        exact ⟨{ u with area_km2 := some (g.map (fun x => x / 1000000)) },
          by simp only [table_pop_density, hua, hug], rfl, rfl, rfl, rfl, rfl⟩
  · refine ⟨ar0, (wf_col hwf).1 ar0 ha, (areasNonneg_unpack hareas).1 ar0 ha, ?_⟩
    intro u hua hug
    exact ⟨u, by simp only [table_pop_density, hua], rfl, rfl, rfl, rfl, rfl⟩

/-- C2: raising one area's raw healthcare-capacity value (all else fixed)
never raises that area's composite risk score.  The hypotheses `wf`,
`areasNonneg` and `weightsNonneg` are the spec's data-model constraints
(section 3): equal column lengths, non-negative areas, non-negative
weights. -/
theorem healthcare_increase_never_increases_score
    (s : RiskMapState) (t : ZipTable) (hc : List (Option ℚ)) (i : ℕ) (v v2 : ℚ)
    (hdata : s.zip_code_data = some t) (hwf : t.wf = true)
    (hareas : t.areasNonneg = true)
    (hres : (t.area_km2.isSome || t.geometry.isSome) = true)
    (hw : weightsNonneg s.risk_weights = true)
    (hhc : t.healthcare_capacity = some hc)
    (hi : hc[i]? = some (some v)) (hvv : v ≤ v2) :
    ∃ rt rt2 r r2,
      (calculate_risk_scores s).1 = .ok rt ∧
      (calculate_risk_scores { s with zip_code_data := some (bumpHC t hc i v2) }).1 =
        .ok rt2 ∧
      rt.risk_score[i]? = some r ∧ rt2.risk_score[i]? = some r2 ∧ r2 ≤ r := by
  obtain ⟨ar, harlen, harpos, hres2⟩ := resolve_area t hwf hareas hres
  obtain ⟨t2, hp, hpop2, hbird2, hwater2, hhc2, hvuln2⟩ := hres2 t rfl rfl
  obtain ⟨t2b, hpb, hpop2b, hbird2b, hwater2b, hhc2b, hvuln2b⟩ :=
    hres2 (bumpHC t hc i v2) rfl rfl
  have hok : (calculate_risk_scores s).1 =
      .ok (mkResults s.risk_weights t2 (densityOf t.population ar)) := by
    rw [calculate_risk_scores_eval hdata hp]
  have hokb : (calculate_risk_scores
      { s with zip_code_data := some (bumpHC t hc i v2) }).1 =
      .ok (mkResults s.risk_weights t2b (densityOf t.population ar)) := by
    rw [calculate_risk_scores_eval rfl hpb]
    rfl
  have hiL : i < hc.length := (List.getElem?_eq_some_iff.mp hi).1
  have hiN : i < t.population.length := by
    rw [← (wf_col hwf).2.2.2.1 hc hhc]
    exact hiL
  have hdlen : (minMaxNormalize (densityOf t.population ar)).length =
      t.population.length := by
    rw [length_minMaxNormalize, densityOf_length, harlen, min_self]
  obtain ⟨x1, hx1⟩ := getElem?_isSome_of_len hdlen hiN
  obtain ⟨x2, hx2, hx2b⟩ :=
    factorRawNorm_entry_eq t.bird_density t.population.length
      t.population.length i rfl hiN ((wf_col hwf).2.1)
  obtain ⟨x3, hx3, hx3b⟩ :=
    factorRawNorm_entry_eq t.water_proximity t.population.length
      t.population.length i rfl hiN ((wf_col hwf).2.2.1)
  obtain ⟨x5, hx5, hx5b⟩ :=
    factorRawNorm_entry_eq t.vulnerability_index t.population.length
      t.population.length i rfl hiN ((wf_col hwf).2.2.2.2.1)
  have hui : (fillna hc)[i]? = some v := fillna_getElem hi
  obtain ⟨b, b2, hbu, hbu2, hbb⟩ := minMaxNormalize_set_mono (fillna hc) i v v2 hui hvv
  have hA2 : (factorRawNorm t2b.bird_density t2b.population.length).2[i]? =
      some x2 := by
    rw [hbird2b, hpop2b]; exact hx2b
  have hA3 : (factorRawNorm t2b.water_proximity t2b.population.length).2[i]? =
      some x3 := by
    rw [hwater2b, hpop2b]; exact hx3b
  have hA4 : (healthcareRawNorm t2b.healthcare_capacity
      t2b.population.length).2[i]? = some (1 - b2) := by
    rw [hhc2b, hpop2b]
    show ((minMaxNormalize (fillna (hc.set i (some v2)))).map
      (fun x => 1 - x))[i]? = some (1 - b2)
    rw [fillna_set]
    exact map_one_sub_getElem hbu2
  have hA5 : (factorRawNorm t2b.vulnerability_index t2b.population.length).2[i]? =
      some x5 := by
    rw [hvuln2b, hpop2b]; exact hx5b
  have hB2 : (factorRawNorm t2.bird_density t2.population.length).2[i]? =
      some x2 := by
    rw [hbird2, hpop2]; exact hx2
  have hB3 : (factorRawNorm t2.water_proximity t2.population.length).2[i]? =
      some x3 := by
    rw [hwater2, hpop2]; exact hx3
  have hB4 : (healthcareRawNorm t2.healthcare_capacity
      t2.population.length).2[i]? = some (1 - b) := by
    rw [hhc2, hpop2, hhc]
    exact map_one_sub_getElem hbu
  have hB5 : (factorRawNorm t2.vulnerability_index t2.population.length).2[i]? =
      some x5 := by
    rw [hvuln2, hpop2]; exact hx5
  obtain ⟨r2, r, hr2, hr, hle⟩ := mkResults_score_mono hw
    hx1 hA2 hA3 hA4 hA5 hx1 hB2 hB3 hB4 hB5
    (le_refl x1) (le_refl x2) (le_refl x3) (by linarith) (le_refl x5)
  exact ⟨mkResults s.risk_weights t2 (densityOf t.population ar),
    mkResults s.risk_weights t2b (densityOf t.population ar), r, r2,
    hok, hokb, hr, hr2, hle⟩

/-- C3: raising one area's raw value of any non-healthcare factor
(population, bird density, water proximity, vulnerability index), all else
fixed, never lowers that area's composite risk score.  The hypotheses `wf`,
`areasNonneg` and `weightsNonneg` are the spec's data-model constraints
(section 3). -/
theorem factor_increase_never_decreases_score
    (f : NonHealthFactor) (s : RiskMapState) (t : ZipTable) (i : ℕ) (v v2 : ℚ)
    (hdata : s.zip_code_data = some t) (hwf : t.wf = true)
    (hareas : t.areasNonneg = true)
    (hres : (t.area_km2.isSome || t.geometry.isSome) = true)
    (hw : weightsNonneg s.risk_weights = true)
    (hi : f.rawGet t i = some v) (hvv : v ≤ v2) :
    ∃ rt rt2 r r2,
      (calculate_risk_scores s).1 = .ok rt ∧
      (calculate_risk_scores
        { s with zip_code_data := some (f.setRaw t i v2) }).1 = .ok rt2 ∧
      rt.risk_score[i]? = some r ∧ rt2.risk_score[i]? = some r2 ∧ r ≤ r2 := by
  obtain ⟨ar, harlen, harpos, hres2⟩ := resolve_area t hwf hareas hres
  obtain ⟨t2, hp, hpop2, hbird2, hwater2, hhc2, hvuln2⟩ := hres2 t rfl rfl
  have hok : (calculate_risk_scores s).1 =
      .ok (mkResults s.risk_weights t2 (densityOf t.population ar)) := by
    rw [calculate_risk_scores_eval hdata hp]
  cases f with
  | population =>
    have hpi : t.population[i]? = some v := hi
    obtain ⟨t2b, hpb, hpop2b, hbird2b, hwater2b, hhc2b, hvuln2b⟩ :=
      hres2 (NonHealthFactor.setRaw .population t i v2) rfl rfl
    have hokb : (calculate_risk_scores
        { s with zip_code_data := some (NonHealthFactor.setRaw .population t i v2) }).1 =
        .ok (mkResults s.risk_weights t2b
          (densityOf (t.population.set i v2) ar)) := by
      rw [calculate_risk_scores_eval rfl hpb]
      rfl
    have hiN : i < t.population.length := (List.getElem?_eq_some_iff.mp hpi).1
    obtain ⟨a, hai⟩ := getElem?_isSome_of_len harlen hiN
    have ha0 : 0 ≤ a := harpos a (List.getElem?_mem hai)
    have hdi : (densityOf t.population ar)[i]? =
        some (if a = 0 then 0 else v / a) := densityOf_getElem hpi hai
    have hdset : densityOf (t.population.set i v2) ar =
        (densityOf t.population ar).set i (if a = 0 then 0 else v2 / a) :=
      zipWith_set_left _ t.population ar i v2 a hai
    have hdv : (if a = 0 then 0 else v / a) ≤ (if a = 0 then 0 else v2 / a) := by
      by_cases h0 : a = 0
      · simp [h0]
      · have hap : 0 < a := lt_of_le_of_ne ha0 (Ne.symm h0)
        simp only [h0, if_false]
        gcongr
    obtain ⟨b, b2, hb, hb2x, hbb⟩ :=
      minMaxNormalize_set_mono (densityOf t.population ar) i _ _ hdi hdv
    have hA1 : (minMaxNormalize (densityOf (t.population.set i v2) ar))[i]? =
        some b2 := by
      rw [hdset]
      exact hb2x
    have hnn : t.population.length = t2b.population.length := by
      rw [hpop2b]
      show t.population.length = (t.population.set i v2).length
      exact (List.length_set t.population i v2).symm
    obtain ⟨x2, hx2, hx2b⟩ :=
      factorRawNorm_entry_eq t.bird_density t.population.length
        t2b.population.length i hnn hiN ((wf_col hwf).2.1)
    obtain ⟨x3, hx3, hx3b⟩ :=
      factorRawNorm_entry_eq t.water_proximity t.population.length
        t2b.population.length i hnn hiN ((wf_col hwf).2.2.1)
    obtain ⟨x4, hx4, hx4b⟩ :=
      healthcareRawNorm_entry_eq t.healthcare_capacity t.population.length
        t2b.population.length i hnn hiN ((wf_col hwf).2.2.2.1)
    obtain ⟨x5, hx5, hx5b⟩ :=
      factorRawNorm_entry_eq t.vulnerability_index t.population.length
        t2b.population.length i hnn hiN ((wf_col hwf).2.2.2.2.1)
    have hA2 : (factorRawNorm t2b.bird_density t2b.population.length).2[i]? =
        some x2 := by
      rw [hbird2b]; exact hx2b
    have hA3 : (factorRawNorm t2b.water_proximity t2b.population.length).2[i]? =
        some x3 := by
      rw [hwater2b]; exact hx3b
    have hA4 : (healthcareRawNorm t2b.healthcare_capacity
        t2b.population.length).2[i]? = some x4 := by
      rw [hhc2b]; exact hx4b
    have hA5 : (factorRawNorm t2b.vulnerability_index
        t2b.population.length).2[i]? = some x5 := by
      rw [hvuln2b]; exact hx5b
    have hB2 : (factorRawNorm t2.bird_density t2.population.length).2[i]? =
        some x2 := by
      rw [hbird2, hpop2]; exact hx2
    have hB3 : (factorRawNorm t2.water_proximity t2.population.length).2[i]? =
        some x3 := by
      rw [hwater2, hpop2]; exact hx3
    have hB4 : (healthcareRawNorm t2.healthcare_capacity
        t2.population.length).2[i]? = some x4 := by
      rw [hhc2, hpop2]; exact hx4
    have hB5 : (factorRawNorm t2.vulnerability_index t2.population.length).2[i]? =
        some x5 := by
      rw [hvuln2, hpop2]; exact hx5
    obtain ⟨r, r2, hr, hr2, hle⟩ := mkResults_score_mono hw
      hb hB2 hB3 hB4 hB5 hA1 hA2 hA3 hA4 hA5
      hbb (le_refl x2) (le_refl x3) (le_refl x4) (le_refl x5)
    exact ⟨mkResults s.risk_weights t2 (densityOf t.population ar),
      mkResults s.risk_weights t2b (densityOf (t.population.set i v2) ar),
      r, r2, hok, hokb, hr, hr2, hle⟩
  | bird_density =>
    simp only [NonHealthFactor.rawGet, Option.bind_eq_some] at hi
    obtain ⟨cb, htc, o, hco, ho⟩ := hi
    have ho2 : o = some v := ho
    subst ho2
    have hbd : (NonHealthFactor.setRaw .bird_density t i v2).bird_density =
        some (cb.set i (some v2)) := by
      simp [NonHealthFactor.setRaw, htc]
    obtain ⟨t2b, hpb, hpop2b, hbird2b, hwater2b, hhc2b, hvuln2b⟩ :=
      hres2 (NonHealthFactor.setRaw .bird_density t i v2) rfl rfl
    have hokb : (calculate_risk_scores
        { s with zip_code_data := some (NonHealthFactor.setRaw .bird_density t i v2) }).1 =
        .ok (mkResults s.risk_weights t2b (densityOf t.population ar)) := by
      rw [calculate_risk_scores_eval rfl hpb]
      rfl
    have hiL : i < cb.length := (List.getElem?_eq_some_iff.mp hco).1
    have hiN : i < t.population.length := by
      rw [← (wf_col hwf).2.1 cb htc]
      exact hiL
    have hdlen : (minMaxNormalize (densityOf t.population ar)).length =
        t.population.length := by
      rw [length_minMaxNormalize, densityOf_length, harlen, min_self]
    obtain ⟨x1, hx1⟩ := getElem?_isSome_of_len hdlen hiN
    obtain ⟨x3, hx3, hx3b⟩ :=
      factorRawNorm_entry_eq t.water_proximity t.population.length
        t.population.length i rfl hiN ((wf_col hwf).2.2.1)
    obtain ⟨x4, hx4, hx4b⟩ :=
      healthcareRawNorm_entry_eq t.healthcare_capacity t.population.length
        t.population.length i rfl hiN ((wf_col hwf).2.2.2.1)
    obtain ⟨x5, hx5, hx5b⟩ :=
      factorRawNorm_entry_eq t.vulnerability_index t.population.length
        t.population.length i rfl hiN ((wf_col hwf).2.2.2.2.1)
    have hui : (fillna cb)[i]? = some v := fillna_getElem hco
    obtain ⟨b, b2, hbu, hbu2, hbb⟩ :=
      minMaxNormalize_set_mono (fillna cb) i v v2 hui hvv
    have hA2 : (factorRawNorm t2b.bird_density t2b.population.length).2[i]? =
        some b2 := by
      rw [hbird2b, hbd, hpop2b]
      show (minMaxNormalize (fillna (cb.set i (some v2))))[i]? = some b2
      rw [fillna_set]
      exact hbu2
    have hB2 : (factorRawNorm t2.bird_density t2.population.length).2[i]? =
        some b := by
      rw [hbird2, hpop2, htc]
      exact hbu
    have hA3 : (factorRawNorm t2b.water_proximity t2b.population.length).2[i]? =
        some x3 := by
      rw [hwater2b, hpop2b]; exact hx3b
    have hA4 : (healthcareRawNorm t2b.healthcare_capacity
        t2b.population.length).2[i]? = some x4 := by
      rw [hhc2b, hpop2b]; exact hx4b
    have hA5 : (factorRawNorm t2b.vulnerability_index
        t2b.population.length).2[i]? = some x5 := by
      rw [hvuln2b, hpop2b]; exact hx5b
    have hB3 : (factorRawNorm t2.water_proximity t2.population.length).2[i]? =
        some x3 := by
      rw [hwater2, hpop2]; exact hx3
    have hB4 : (healthcareRawNorm t2.healthcare_capacity
        t2.population.length).2[i]? = some x4 := by
      rw [hhc2, hpop2]; exact hx4
    have hB5 : (factorRawNorm t2.vulnerability_index t2.population.length).2[i]? =
        some x5 := by
      rw [hvuln2, hpop2]; exact hx5
    obtain ⟨r, r2, hr, hr2, hle⟩ := mkResults_score_mono hw
      hx1 hB2 hB3 hB4 hB5 hx1 hA2 hA3 hA4 hA5
      (le_refl x1) hbb (le_refl x3) (le_refl x4) (le_refl x5)
    exact ⟨mkResults s.risk_weights t2 (densityOf t.population ar),
      mkResults s.risk_weights t2b (densityOf t.population ar),
      r, r2, hok, hokb, hr, hr2, hle⟩
  | water_proximity =>
    simp only [NonHealthFactor.rawGet, Option.bind_eq_some] at hi
    obtain ⟨cb, htc, o, hco, ho⟩ := hi
    have ho2 : o = some v := ho
    subst ho2
    have hbd : (NonHealthFactor.setRaw .water_proximity t i v2).water_proximity =
        some (cb.set i (some v2)) := by
      simp [NonHealthFactor.setRaw, htc]
    obtain ⟨t2b, hpb, hpop2b, hbird2b, hwater2b, hhc2b, hvuln2b⟩ :=
      hres2 (NonHealthFactor.setRaw .water_proximity t i v2) rfl rfl
    have hokb : (calculate_risk_scores
        { s with zip_code_data := some (NonHealthFactor.setRaw .water_proximity t i v2) }).1 =
        .ok (mkResults s.risk_weights t2b (densityOf t.population ar)) := by
      rw [calculate_risk_scores_eval rfl hpb]
      rfl
    have hiL : i < cb.length := (List.getElem?_eq_some_iff.mp hco).1
    have hiN : i < t.population.length := by
      rw [← (wf_col hwf).2.2.1 cb htc]
      exact hiL
    have hdlen : (minMaxNormalize (densityOf t.population ar)).length =
        t.population.length := by
      rw [length_minMaxNormalize, densityOf_length, harlen, min_self]
    obtain ⟨x1, hx1⟩ := getElem?_isSome_of_len hdlen hiN
    obtain ⟨x2, hx2, hx2b⟩ :=
      factorRawNorm_entry_eq t.bird_density t.population.length
        t.population.length i rfl hiN ((wf_col hwf).2.1)
    obtain ⟨x4, hx4, hx4b⟩ :=
      healthcareRawNorm_entry_eq t.healthcare_capacity t.population.length
        t.population.length i rfl hiN ((wf_col hwf).2.2.2.1)
    obtain ⟨x5, hx5, hx5b⟩ :=
      factorRawNorm_entry_eq t.vulnerability_index t.population.length
        t.population.length i rfl hiN ((wf_col hwf).2.2.2.2.1)
    have hui : (fillna cb)[i]? = some v := fillna_getElem hco
    obtain ⟨b, b2, hbu, hbu2, hbb⟩ :=
      minMaxNormalize_set_mono (fillna cb) i v v2 hui hvv
    have hA3 : (factorRawNorm t2b.water_proximity t2b.population.length).2[i]? =
        some b2 := by
      rw [hwater2b, hbd, hpop2b]
      show (minMaxNormalize (fillna (cb.set i (some v2))))[i]? = some b2
      rw [fillna_set]
      exact hbu2
    have hB3 : (factorRawNorm t2.water_proximity t2.population.length).2[i]? =
        some b := by
      rw [hwater2, hpop2, htc]
      exact hbu
    have hA2 : (factorRawNorm t2b.bird_density t2b.population.length).2[i]? =
        some x2 := by
      rw [hbird2b, hpop2b]; exact hx2b
    have hA4 : (healthcareRawNorm t2b.healthcare_capacity
        t2b.population.length).2[i]? = some x4 := by
      rw [hhc2b, hpop2b]; exact hx4b
    have hA5 : (factorRawNorm t2b.vulnerability_index
        t2b.population.length).2[i]? = some x5 := by
      rw [hvuln2b, hpop2b]; exact hx5b
    have hB2 : (factorRawNorm t2.bird_density t2.population.length).2[i]? =
        some x2 := by
      rw [hbird2, hpop2]; exact hx2
    have hB4 : (healthcareRawNorm t2.healthcare_capacity
        t2.population.length).2[i]? = some x4 := by
      rw [hhc2, hpop2]; exact hx4
    have hB5 : (factorRawNorm t2.vulnerability_index t2.population.length).2[i]? =
        some x5 := by
      rw [hvuln2, hpop2]; exact hx5
    obtain ⟨r, r2, hr, hr2, hle⟩ := mkResults_score_mono hw
      hx1 hB2 hB3 hB4 hB5 hx1 hA2 hA3 hA4 hA5
      (le_refl x1) (le_refl x2) hbb (le_refl x4) (le_refl x5)
    exact ⟨mkResults s.risk_weights t2 (densityOf t.population ar),
      mkResults s.risk_weights t2b (densityOf t.population ar),
      r, r2, hok, hokb, hr, hr2, hle⟩
  | vulnerability_index =>
    simp only [NonHealthFactor.rawGet, Option.bind_eq_some] at hi
    obtain ⟨cb, htc, o, hco, ho⟩ := hi
    have ho2 : o = some v := ho
    subst ho2
    have hbd : (NonHealthFactor.setRaw .vulnerability_index t i
        v2).vulnerability_index = some (cb.set i (some v2)) := by
      simp [NonHealthFactor.setRaw, htc]
    obtain ⟨t2b, hpb, hpop2b, hbird2b, hwater2b, hhc2b, hvuln2b⟩ :=
      hres2 (NonHealthFactor.setRaw .vulnerability_index t i v2) rfl rfl
    have hokb : (calculate_risk_scores
        { s with zip_code_data := some (NonHealthFactor.setRaw .vulnerability_index t i v2) }).1 =
        .ok (mkResults s.risk_weights t2b (densityOf t.population ar)) := by
      rw [calculate_risk_scores_eval rfl hpb]
      rfl
    have hiL : i < cb.length := (List.getElem?_eq_some_iff.mp hco).1
    have hiN : i < t.population.length := by
      rw [← (wf_col hwf).2.2.2.2.1 cb htc]
      exact hiL
    have hdlen : (minMaxNormalize (densityOf t.population ar)).length =
        t.population.length := by
      rw [length_minMaxNormalize, densityOf_length, harlen, min_self]
    obtain ⟨x1, hx1⟩ := getElem?_isSome_of_len hdlen hiN
    obtain ⟨x2, hx2, hx2b⟩ :=
      factorRawNorm_entry_eq t.bird_density t.population.length
        t.population.length i rfl hiN ((wf_col hwf).2.1)
    obtain ⟨x3, hx3, hx3b⟩ :=
      factorRawNorm_entry_eq t.water_proximity t.population.length
        t.population.length i rfl hiN ((wf_col hwf).2.2.1)
    obtain ⟨x4, hx4, hx4b⟩ :=
      healthcareRawNorm_entry_eq t.healthcare_capacity t.population.length
        t.population.length i rfl hiN ((wf_col hwf).2.2.2.1)
    have hui : (fillna cb)[i]? = some v := fillna_getElem hco
    obtain ⟨b, b2, hbu, hbu2, hbb⟩ :=
      minMaxNormalize_set_mono (fillna cb) i v v2 hui hvv
    have hA5 : (factorRawNorm t2b.vulnerability_index
        t2b.population.length).2[i]? = some b2 := by
      rw [hvuln2b, hbd, hpop2b]
      show (minMaxNormalize (fillna (cb.set i (some v2))))[i]? = some b2
      rw [fillna_set]
      exact hbu2
    have hB5 : (factorRawNorm t2.vulnerability_index t2.population.length).2[i]? =
        some b := by
      rw [hvuln2, hpop2, htc]
      exact hbu
    have hA2 : (factorRawNorm t2b.bird_density t2b.population.length).2[i]? =
        some x2 := by
      rw [hbird2b, hpop2b]; exact hx2b
    have hA3 : (factorRawNorm t2b.water_proximity t2b.population.length).2[i]? =
        some x3 := by
      rw [hwater2b, hpop2b]; exact hx3b
    have hA4 : (healthcareRawNorm t2b.healthcare_capacity
        t2b.population.length).2[i]? = some x4 := by
      rw [hhc2b, hpop2b]; exact hx4b
    have hB2 : (factorRawNorm t2.bird_density t2.population.length).2[i]? =
        some x2 := by
      rw [hbird2, hpop2]; exact hx2
    have hB3 : (factorRawNorm t2.water_proximity t2.population.length).2[i]? =
        some x3 := by
      rw [hwater2, hpop2]; exact hx3
    have hB4 : (healthcareRawNorm t2.healthcare_capacity
        t2.population.length).2[i]? = some x4 := by
      rw [hhc2, hpop2]; exact hx4
    obtain ⟨r, r2, hr, hr2, hle⟩ := mkResults_score_mono hw
      hx1 hB2 hB3 hB4 hB5 hx1 hA2 hA3 hA4 hA5
      (le_refl x1) (le_refl x2) (le_refl x3) (le_refl x4) hbb
    exact ⟨mkResults s.risk_weights t2 (densityOf t.population ar),
      mkResults s.risk_weights t2b (densityOf t.population ar),
      r, r2, hok, hokb, hr, hr2, hle⟩

/-- Witness for C2 on `exSHC`: raising row 0's healthcare capacity from 0 to 2. -/
theorem healthcare_increase_never_increases_score_witness :
    ∃ rt rt2 r r2,
      (calculate_risk_scores exSHC).1 = .ok rt ∧
      (calculate_risk_scores
        { exSHC with zip_code_data := some (bumpHC exTableHC [some 0, some 1] 0 2) }).1 =
        .ok rt2 ∧
      rt.risk_score[0]? = some r ∧ rt2.risk_score[0]? = some r2 ∧ r2 ≤ r :=
  healthcare_increase_never_increases_score exSHC exTableHC [some 0, some 1] 0 0 2
    rfl (by with_unfolding_all decide) (by with_unfolding_all decide)
    (by with_unfolding_all decide) (by with_unfolding_all decide) rfl
    (by with_unfolding_all decide) (by norm_num)

/-- Witness for C3 on `exS1`: raising row 0's population from 1000 to 6000. -/
theorem factor_increase_never_decreases_score_witness :
    ∃ rt rt2 r r2,
      (calculate_risk_scores exS1).1 = .ok rt ∧
      (calculate_risk_scores
        { exS1 with
          zip_code_data := some (NonHealthFactor.setRaw .population exTable1 0 6000) }).1 =
        .ok rt2 ∧
      rt.risk_score[0]? = some r ∧ rt2.risk_score[0]? = some r2 ∧ r ≤ r2 :=
  factor_increase_never_decreases_score .population exS1 exTable1 0 1000 6000
    rfl (by with_unfolding_all decide) (by with_unfolding_all decide)
    (by with_unfolding_all decide) (by with_unfolding_all decide)
    (by with_unfolding_all decide) (by norm_num)

end RiskMapModel
